import Mathlib

/-!
# Linked points: the per-frame proximity graph of `src/js/script.js`

A shallow embedding of the animation state, of the click handler that appends a
particle and of `tick`, the per-frame routine that moves the particles and rebuilds
the line segments between close ones.

Numbers are taken in an arbitrary linearly ordered field `R`. The arithmetic on
JavaScript numbers is exact in `R`; the two library functions the script relies on are
parameters: `sqrt : R → R` for `Math.sqrt`, and `fround : R → R` for the conversion to
a 32 bit float that every store into a `Float32Array` makes. Typed arrays are
functions `Nat → R` together with their fixed length: a write at an index outside
the length is dropped, as in JavaScript.
-/

namespace LinkedPoints

/-- Line 58: `const maxParticleCount = 1000`. -/
def maxParticleCount : Nat := 1000

/-- Line 60: `const segments = maxParticleCount * maxParticleCount`. -/
def segments : Nat := maxParticleCount * maxParticleCount

/-- A `THREE.Vector3`. -/
structure Vector3 (R : Type) where
  x : R
  y : R
  z : R

/-- One entry of `particlesData` (lines 89-92). -/
structure ParticleData (R : Type) where
  velocity : Vector3 R
  numConnections : Nat

/-- The object `effectController` (lines 64-69); `maxConnections` is a count. -/
structure EffectController (R : Type) where
  minDistance : R
  limitConnections : Bool
  maxConnections : Nat

/-- The object `sizes` (lines 17-20). -/
structure Sizes (R : Type) where
  width : R
  height : R

/-- The mutable globals of the script that the click handler and `tick` touch.
`particlePositions` has length `maxParticleCount * 3`, `positions` and `colors`
have length `segments * 3` (all three are `Float32Array`s), and `particlesData` has
`maxParticleCount` entries. `particlesDrawCount` and `linesDrawCount` are the counts
handed to `setDrawRange` on the point geometry and on the line geometry. -/
structure State (R : Type) where
  sizes : Sizes R
  maxX : R
  maxY : R
  particleCount : Nat
  particlePositions : Nat → R
  particlesData : Nat → ParticleData R
  positions : Nat → R
  colors : Nat → R
  effectController : EffectController R
  particlesDrawCount : Nat
  linesDrawCount : Nat

/-- The state of `tick` inside its loops: the globals and the three locals of
lines 165-167. -/
structure Frame (R : Type) where
  st : State R
  vertexpos : Nat
  colorpos : Nat
  numConnected : Nat

section Defs

variable {R : Type} [LinearOrderedField R]

/-- Assignment `a[k] = v` on a `Float32Array` of length `len`: the value is converted
to a 32 bit float, and an index outside the array is ignored. -/
def f32set (fround : R → R) (len : Nat) (a : Nat → R) (k : Nat) (v : R) : Nat → R :=
  if k < len then Function.update a k (fround v) else a

/-- Lines 122-135, the click handler, with `e.clientX` and `e.clientY` as arguments. -/
def click (fround : R → R) (clientX clientY : R) (s : State R) : State R :=
  let pointX := clientX / s.sizes.width * s.maxX - s.maxX / 2
  let pointY := clientY / s.sizes.height * s.maxY - s.maxY / 2
  let p1 := f32set fround (maxParticleCount * 3) s.particlePositions
    (s.particleCount * 3 + 0) pointX
  let p2 := f32set fround (maxParticleCount * 3) p1 (s.particleCount * 3 + 1) (- pointY)
  { s with
    particlePositions := p2
    particleCount := s.particleCount + 1
    particlesDrawCount := s.particleCount + 1 }

/-- Body of the loop of lines 169-170: `particlesData[i].numConnections = 0`. -/
def resetStep (pd : Nat → ParticleData R) (i : Nat) : Nat → ParticleData R :=
  Function.update pd i { pd i with numConnections := 0 }

/-- Lines 169-170 for `i = 0 .. n-1`. -/
def resetLoop (n : Nat) (pd : Nat → ParticleData R) : Nat → ParticleData R :=
  (List.range n).foldl resetStep pd

/-- Lines 173-182: the position of particle `i` advances by `velocity / 20` on x and
y, each sum being stored as a 32 bit float, then each velocity component is negated
when the stored coordinate is outside the plane. -/
def moveParticle (fround : R → R) (i : Nat) (s : State R) : State R :=
  let particleData := s.particlesData i
  let p1 := f32set fround (maxParticleCount * 3) s.particlePositions (i * 3 + 0)
    (s.particlePositions (i * 3 + 0) + particleData.velocity.x / 20)
  let p2 := f32set fround (maxParticleCount * 3) p1 (i * 3 + 1)
    (p1 (i * 3 + 1) + particleData.velocity.y / 20)
  let vx := if p2 (i * 3 + 0) < - s.maxX / 2 ∨ p2 (i * 3) > s.maxX / 2
    then - particleData.velocity.x else particleData.velocity.x
  let vy := if p2 (i * 3 + 1) < - s.maxY / 2 ∨ p2 (i * 3 + 1) > s.maxY / 2
    then - particleData.velocity.y else particleData.velocity.y
  { s with
    particlePositions := p2
    particlesData := Function.update s.particlesData i
      { particleData with velocity := { x := vx, y := vy, z := particleData.velocity.z } } }

/-- The test of lines 184 and 190 on particle `k`:
`effectController.limitConnections && numConnections >= effectController.maxConnections`. -/
def capReached (s : State R) (k : Nat) : Bool :=
  s.effectController.limitConnections &&
    decide ((s.particlesData k).numConnections ≥ s.effectController.maxConnections)

/-- Line 196: `dist` for the pair `(i, j)`, from the positions currently stored. -/
def pairDist (sqrt : R → R) (s : State R) (i j : Nat) : R :=
  let dx := s.particlePositions (i * 3 + 0) - s.particlePositions (j * 3 + 0)
  let dy := s.particlePositions (i * 3 + 1) - s.particlePositions (j * 3 + 1)
  let dz := s.particlePositions (i * 3 + 2) - s.particlePositions (j * 3 + 2)
  sqrt (dx * dx + dy * dy + dz * dz)

/-- `numConnections ++` on one entry of `particlesData`. -/
def bump (pd : Nat → ParticleData R) (k : Nat) : Nat → ParticleData R :=
  Function.update pd k { pd k with numConnections := (pd k).numConnections + 1 }

/-- Lines 200-221: record the edge `(i, j)` at distance `dist`. -/
def addEdge (fround : R → R) (i j : Nat) (dist : R) (f : Frame R) : Frame R :=
  let s := f.st
  let pd := bump (bump s.particlesData i) j
  let alpha := 1 - dist / s.effectController.minDistance
  let v0 := f32set fround (segments * 3) s.positions f.vertexpos
    (s.particlePositions (i * 3 + 0))
  let v1 := f32set fround (segments * 3) v0 (f.vertexpos + 1) (s.particlePositions (i * 3 + 1))
  let v2 := f32set fround (segments * 3) v1 (f.vertexpos + 2) (s.particlePositions (i * 3 + 2))
  let v3 := f32set fround (segments * 3) v2 (f.vertexpos + 3) (s.particlePositions (j * 3 + 0))
  let v4 := f32set fround (segments * 3) v3 (f.vertexpos + 4) (s.particlePositions (j * 3 + 1))
  let v5 := f32set fround (segments * 3) v4 (f.vertexpos + 5) (s.particlePositions (j * 3 + 2))
  let c0 := f32set fround (segments * 3) s.colors f.colorpos alpha
  let c1 := f32set fround (segments * 3) c0 (f.colorpos + 1) alpha
  let c2 := f32set fround (segments * 3) c1 (f.colorpos + 2) alpha
  let c3 := f32set fround (segments * 3) c2 (f.colorpos + 3) alpha
  let c4 := f32set fround (segments * 3) c3 (f.colorpos + 4) alpha
  let c5 := f32set fround (segments * 3) c4 (f.colorpos + 5) alpha
  { st := { s with particlesData := pd, positions := v5, colors := c5 }
    vertexpos := f.vertexpos + 6
    colorpos := f.colorpos + 6
    numConnected := f.numConnected + 1 }

/-- Lines 189-222: the body of the inner loop for the pair `(i, j)`. -/
def pairStep (sqrt fround : R → R) (i : Nat) (f : Frame R) (j : Nat) : Frame R :=
  if capReached f.st j then f
  else if pairDist sqrt f.st i j < f.st.effectController.minDistance then
    addEdge fround i j (pairDist sqrt f.st i j) f
  else f

/-- Lines 187-223: the inner loop, `j = i+1 .. particleCount-1`. -/
def innerLoop (sqrt fround : R → R) (i : Nat) (f : Frame R) : Frame R :=
  (List.range' (i + 1) (f.st.particleCount - (i + 1))).foldl (pairStep sqrt fround i) f

/-- Lines 184-223: the part of the outer loop body after the motion of particle `i`:
nothing when `i` has reached the cap, the inner loop otherwise. -/
def scanRow (sqrt fround : R → R) (f : Frame R) (i : Nat) : Frame R :=
  if capReached f.st i then f else innerLoop sqrt fround i f

/-- Lines 173-223: the body of the outer loop for particle `i`. -/
def outerStep (sqrt fround : R → R) (f : Frame R) (i : Nat) : Frame R :=
  scanRow sqrt fround { f with st := moveParticle fround i f.st } i

/-- Lines 165-170: the locals are zero and the connection counts of the active
particles are reset. -/
def initFrame (s : State R) : Frame R :=
  { st := { s with particlesData := resetLoop s.particleCount s.particlesData }
    vertexpos := 0
    colorpos := 0
    numConnected := 0 }

/-- Lines 165-225: the frame when the outer loop of `tick` ends. -/
def tickFrame (sqrt fround : R → R) (s : State R) : Frame R :=
  (List.range s.particleCount).foldl (outerStep sqrt fround) (initFrame s)

/-- Lines 162-227, `tick`, up to the call of the renderer. `particlesData` has
`maxParticleCount` entries, so `particlesData[i]` is `undefined` for larger `i` and
the assignment of line 170 throws: that happens exactly when `particleCount`
exceeds `maxParticleCount`, and is `none` here. -/
def tick (sqrt fround : R → R) (s : State R) : Option (State R) :=
  if s.particleCount ≤ maxParticleCount then
    some { (tickFrame sqrt fround s).st with
      linesDrawCount := (tickFrame sqrt fround s).numConnected * 2 }
  else none

/-- The frame of `tick` when the outer loop reaches particle `i`. -/
def frameAtRow (sqrt fround : R → R) (s : State R) (i : Nat) : Frame R :=
  (List.range i).foldl (outerStep sqrt fround) (initFrame s)

/-- The frame of `tick` after the motion of particle `i` (line 182), where the
test of line 184 is made. -/
def frameAtScan (sqrt fround : R → R) (s : State R) (i : Nat) : Frame R :=
  { frameAtRow sqrt fround s i with st := moveParticle fround i (frameAtRow sqrt fround s i).st }

/-- The frame of `tick` when the inner loop of particle `i` reaches `j`, that is when
the pair `(i, j)` is examined (the row of `i` being entered). -/
def frameAtPair (sqrt fround : R → R) (s : State R) (i j : Nat) : Frame R :=
  (List.range' (i + 1) (j - (i + 1))).foldl (pairStep sqrt fround i) (frameAtScan sqrt fround s i)

/-- The x coordinate of particle `i` stored by line 175. -/
def movedX (fround : R → R) (s : State R) (i : Nat) : R :=
  fround (s.particlePositions (i * 3 + 0) + (s.particlesData i).velocity.x / 20)

/-- The y coordinate of particle `i` stored by line 176. -/
def movedY (fround : R → R) (s : State R) (i : Nat) : R :=
  fround (s.particlePositions (i * 3 + 1) + (s.particlesData i).velocity.y / 20)

/-- The velocity of particle `i` after lines 178-182. -/
def movedVelocity (fround : R → R) (s : State R) (i : Nat) : Vector3 R :=
  { x := if movedX fround s i < - s.maxX / 2 ∨ movedX fround s i > s.maxX / 2
      then - (s.particlesData i).velocity.x else (s.particlesData i).velocity.x
    y := if movedY fround s i < - s.maxY / 2 ∨ movedY fround s i > s.maxY / 2
      then - (s.particlesData i).velocity.y else (s.particlesData i).velocity.y
    z := (s.particlesData i).velocity.z }

/-- Two states with the same parameters, the same particle positions and the same
velocities: they may differ in connection counts, edge buffers and line count. -/
structure SameMotion (t u : State R) : Prop where
  sizes : u.sizes = t.sizes
  maxX : u.maxX = t.maxX
  maxY : u.maxY = t.maxY
  particleCount : u.particleCount = t.particleCount
  effectController : u.effectController = t.effectController
  particlesDrawCount : u.particlesDrawCount = t.particlesDrawCount
  particlePositions : u.particlePositions = t.particlePositions
  velocity : ∀ k, (u.particlesData k).velocity = (t.particlesData k).velocity

/-- State `t` is state `s` with the motion of lines 175-182 applied to the particles
below `m` and to no other; connection counts and edge buffers are left free. -/
structure Moved (fround : R → R) (s : State R) (m : Nat) (t : State R) : Prop where
  sizes : t.sizes = s.sizes
  maxX : t.maxX = s.maxX
  maxY : t.maxY = s.maxY
  particleCount : t.particleCount = s.particleCount
  effectController : t.effectController = s.effectController
  particlesDrawCount : t.particlesDrawCount = s.particlesDrawCount
  posX : ∀ i, t.particlePositions (i * 3 + 0) =
    if i < m then movedX fround s i else s.particlePositions (i * 3 + 0)
  posY : ∀ i, t.particlePositions (i * 3 + 1) =
    if i < m then movedY fround s i else s.particlePositions (i * 3 + 1)
  posZ : ∀ i, t.particlePositions (i * 3 + 2) = s.particlePositions (i * 3 + 2)
  velocity : ∀ i, (t.particlesData i).velocity =
    if i < m then movedVelocity fround s i else (s.particlesData i).velocity

/-- Frame `g` comes no earlier than frame `f` in a tick: the write cursors have not
moved back and the buffer entries below the cursors of `f` are still the same. -/
structure Later (f g : Frame R) : Prop where
  vertexpos : f.vertexpos ≤ g.vertexpos
  colorpos : f.colorpos ≤ g.colorpos
  positions : ∀ k, k < f.vertexpos → g.st.positions k = f.st.positions k
  colors : ∀ k, k < f.colorpos → g.st.colors k = f.st.colors k

/-- Two frames that agree on everything `tick` reads: parameters, particle positions,
particle data, locals, and the buffer entries below the write cursors that lie inside
the buffers. They may differ in the stale entries at and beyond the cursors. -/
structure Agree (f g : Frame R) : Prop where
  maxX : g.st.maxX = f.st.maxX
  maxY : g.st.maxY = f.st.maxY
  particleCount : g.st.particleCount = f.st.particleCount
  effectController : g.st.effectController = f.st.effectController
  particlePositions : g.st.particlePositions = f.st.particlePositions
  particlesData : g.st.particlesData = f.st.particlesData
  vertexpos : g.vertexpos = f.vertexpos
  colorpos : g.colorpos = f.colorpos
  numConnected : g.numConnected = f.numConnected
  positions : ∀ k, k < f.vertexpos → k < segments * 3 → g.st.positions k = f.st.positions k
  colors : ∀ k, k < f.colorpos → k < segments * 3 → g.st.colors k = f.st.colors k

/-! ### The specification's two components -/

/-- Section 4.3 of the specification, MotionIntegrator, as one simultaneous update:
every active point `i` gets `position[i] += velocity[i] / 20` on x and y (z held
constant, the position buffer holding 32 bit floats), and velocity.x (velocity.y) is
negated if the resulting x (y) is outside [-maxX/2, maxX/2] ([-maxY/2, maxY/2]). -/
def specMotion (fround : R → R) (s : State R) : State R :=
  { s with
    particlePositions := fun k =>
      if k / 3 < s.particleCount then
        if k % 3 = 0 then
          fround (s.particlePositions k + (s.particlesData (k / 3)).velocity.x / 20)
        else if k % 3 = 1 then
          fround (s.particlePositions k + (s.particlesData (k / 3)).velocity.y / 20)
        else s.particlePositions k
      else s.particlePositions k
    particlesData := fun i =>
      if i < s.particleCount then
        let x := fround (s.particlePositions (i * 3) + (s.particlesData i).velocity.x / 20)
        let y := fround (s.particlePositions (i * 3 + 1) + (s.particlesData i).velocity.y / 20)
        { velocity :=
            { x := if x < - s.maxX / 2 ∨ s.maxX / 2 < x
                then - (s.particlesData i).velocity.x else (s.particlesData i).velocity.x
              y := if y < - s.maxY / 2 ∨ s.maxY / 2 < y
                then - (s.particlesData i).velocity.y else (s.particlesData i).velocity.y
              z := (s.particlesData i).velocity.z }
          numConnections := (s.particlesData i).numConnections }
      else s.particlesData i }

/-- Section 4.4 of the specification, the step for one candidate `j` of source `i`:
skip `j` if it has reached the cap, else compute the Euclidean distance on all three
coordinates, and if it is below `minDistance` increment both connection counts and
append one edge with alpha = 1 - dist / minDistance on both vertices. The position of
the source `i` is read in `rowPos` and the position of the candidate `j` in
`candPos`. -/
def specPairStep (sqrt fround : R → R) (rowPos candPos : Nat → R) (i : Nat) (g : Frame R)
    (j : Nat) : Frame R :=
  if g.st.effectController.limitConnections = true ∧
      g.st.effectController.maxConnections ≤ (g.st.particlesData j).numConnections then g
  else
    let dist := sqrt ((rowPos (i * 3) - candPos (j * 3)) * (rowPos (i * 3) - candPos (j * 3))
      + (rowPos (i * 3 + 1) - candPos (j * 3 + 1)) * (rowPos (i * 3 + 1) - candPos (j * 3 + 1))
      + (rowPos (i * 3 + 2) - candPos (j * 3 + 2)) * (rowPos (i * 3 + 2) - candPos (j * 3 + 2)))
    if dist < g.st.effectController.minDistance then
      let alpha := 1 - dist / g.st.effectController.minDistance
      let put := f32set fround (segments * 3)
      { st := { g.st with
          particlesData := bump (bump g.st.particlesData i) j
          positions :=
            put (put (put (put (put (put g.st.positions
              g.vertexpos (rowPos (i * 3)))
              (g.vertexpos + 1) (rowPos (i * 3 + 1)))
              (g.vertexpos + 2) (rowPos (i * 3 + 2)))
              (g.vertexpos + 3) (candPos (j * 3)))
              (g.vertexpos + 4) (candPos (j * 3 + 1)))
              (g.vertexpos + 5) (candPos (j * 3 + 2))
          colors :=
            put (put (put (put (put (put g.st.colors
              g.colorpos alpha) (g.colorpos + 1) alpha) (g.colorpos + 2) alpha)
              (g.colorpos + 3) alpha) (g.colorpos + 4) alpha) (g.colorpos + 5) alpha }
        vertexpos := g.vertexpos + 6
        colorpos := g.colorpos + 6
        numConnected := g.numConnected + 1 }
    else g

/-- Section 4.4 of the specification, the step for one source `i`: skip `i` if it has
reached the cap, else go through the candidates `j` from `i + 1` to `n - 1`. -/
def specScanRow (sqrt fround : R → R) (rowPos candPos : Nat → R) (g : Frame R) (i : Nat) :
    Frame R :=
  if g.st.effectController.limitConnections = true ∧
      g.st.effectController.maxConnections ≤ (g.st.particlesData i).numConnections then g
  else (List.range' (i + 1) (g.st.particleCount - (i + 1))).foldl
    (specPairStep sqrt fround rowPos candPos i) g

/-- Section 4.4 of the specification, the start of a build: the connection count of
every active point is reset and the edge buffer is empty. -/
def specReset (s : State R) : Frame R :=
  { st := { s with particlesData := fun k =>
      if k < s.particleCount then { s.particlesData k with numConnections := 0 }
      else s.particlesData k }
    vertexpos := 0
    colorpos := 0
    numConnected := 0 }

/-- Section 4.4 of the specification, ProximityGraphBuilder: reset the connection
count of every active point, then go through the sources `i` from 0 to `n - 1`. -/
def specScan (sqrt fround : R → R) (rowPos candPos : Nat → R) (s : State R) : Frame R :=
  (List.range s.particleCount).foldl (specScanRow sqrt fround rowPos candPos) (specReset s)

/-- Section 6 of the specification, `tick()`, as claim C3 reads it: MotionIntegrator on
all active points first, then ProximityGraphBuilder over the resulting positions, the
valid vertex count being 2 * numConnected. -/
def specTick (sqrt fround : R → R) (s : State R) : State R :=
  let m := specMotion fround s
  let g := specScan sqrt fround m.particlePositions m.particlePositions m
  { g.st with linesDrawCount := g.numConnected * 2 }

/-- The composition that `tick` does realise: MotionIntegrator on all active points and
ProximityGraphBuilder, each pair `(i, j)` with `i < j` taking the position of `i` after
the motion and the position of `j` before the motion. -/
def staggeredTick (sqrt fround : R → R) (s : State R) : State R :=
  let m := specMotion fround s
  let g := specScan sqrt fround m.particlePositions s.particlePositions m
  { g.st with linesDrawCount := g.numConnected * 2 }

/-- Frame `f` of `tick`, with the particles below `m` moved, against frame `g` of the
builder of section 4.4 run on the state with all active particles moved: the same
connection counts, edge buffers and locals. -/
structure Staggered (fround : R → R) (s : State R) (m : Nat) (f g : Frame R) : Prop where
  moved : Moved fround s m f.st
  allMoved : Moved fround s s.particleCount g.st
  counts : ∀ k, (f.st.particlesData k).numConnections = (g.st.particlesData k).numConnections
  positions : f.st.positions = g.st.positions
  colors : f.st.colors = g.st.colors
  linesDrawCount : f.st.linesDrawCount = g.st.linesDrawCount
  vertexpos : f.vertexpos = g.vertexpos
  colorpos : f.colorpos = g.colorpos
  numConnected : f.numConnected = g.numConnected

end Defs

/-! ## Concrete scenes over the rationals -/

section Scenes

/-- The integer square root of `n` bit by bit, from bit `fuel - 1` down: the largest
`r` below `2 ^ fuel` with `r * r ≤ n`. -/
def sqrtBits : Nat → Nat → Nat → Nat
  | 0, _, r => r
  | fuel + 1, n, r =>
    sqrtBits fuel n (if (r + 2 ^ fuel) * (r + 2 ^ fuel) ≤ n then r + 2 ^ fuel else r)

/-- Square root on the rationals by integer square roots of numerator and denominator
(both taken below 2^128): the exact root of every square of a rational, which is all
that the pairs within reach in the scenes below ask of it. -/
def ratSqrt (q : ℚ) : ℚ := (sqrtBits 64 q.num.toNat 0 : ℚ) / (sqrtBits 64 q.den 0 : ℚ)

/-- Whether `2 ^ e ≤ n / d`. -/
def pow2Le (e : Int) (n d : Nat) : Bool :=
  if 0 ≤ e then decide (2 ^ e.toNat * d ≤ n) else decide (d ≤ n * 2 ^ (-e).toNat)

/-- The largest exponent `e` among `hi`, `hi - 1`, ..., `hi - fuel + 1` with
`2 ^ e ≤ n / d`, and `hi - fuel` when there is none. -/
def binadeBelow : Nat → Int → Nat → Nat → Int
  | 0, e, _, _ => e
  | fuel + 1, e, n, d => if pow2Le e n d then e else binadeBelow fuel (e - 1) n d

/-- The integer nearest to `n / d`, a tie going to the even one. -/
def roundHalfEven (n d : Nat) : Nat :=
  if 2 * (n % d) < d then n / d
  else if d < 2 * (n % d) then n / d + 1
  else if (n / d) % 2 = 0 then n / d else n / d + 1

/-- The 32 bit float nearest to the positive rational `n / d`, ties to even: the
nearest multiple of `2 ^ k`, where `k + 23` is the exponent of the binade of `n / d`
taken between -126 (below it the numbers are subnormal) and 127, so that `2 ^ k` is
the weight of the last of the 24 bits of the significand. -/
def froundPos (n d : Nat) : ℚ :=
  let k : Int := binadeBelow 253 127 n d - 23
  if 0 ≤ k then (roundHalfEven n (d * 2 ^ k.toNat) : ℚ) * 2 ^ k.toNat
  else (roundHalfEven (n * 2 ^ (-k).toNat) d : ℚ) / 2 ^ (-k).toNat

/-- `Math.fround` on the rationals: round to nearest, ties to even, with 24 bits of
significand and subnormal numbers. Beyond the largest 32 bit float the true result is
an infinity, which the rationals do not have; the scenes below stay far from it. -/
def fround32 (q : ℚ) : ℚ :=
  if q.num = 0 then 0
  else if q.num < 0 then - froundPos q.num.natAbs q.den
  else froundPos q.num.natAbs q.den

/-- A scene in a 100 by 80 plane shown in an 800 by 600 window: `n` active particles,
coordinates `pos` (x, y, z of particle 0, then of particle 1, and so on, zero past the
end of the list), velocities `vel`, all connection counts zero, empty edge buffers and
`limitConnections` on. -/
def scene (n : Nat) (pos : List ℚ) (vel : Nat → Vector3 ℚ) (maxConnections : Nat)
    (minDistance : ℚ) : State ℚ :=
  { sizes := { width := 800, height := 600 }
    maxX := 100
    maxY := 80
    particleCount := n
    particlePositions := fun k => pos.getD k 0
    particlesData := fun k => { velocity := vel k, numConnections := 0 }
    positions := fun _ => 0
    colors := fun _ => 0
    effectController :=
      { minDistance := minDistance, limitConnections := true, maxConnections := maxConnections }
    particlesDrawCount := n
    linesDrawCount := 0 }

/-- No particle moves. -/
def still : Nat → Vector3 ℚ := fun _ => { x := 0, y := 0, z := 0 }

/-- The scenario of the specification: three particles at rest on a line, at x = 0, 5
and 20, threshold 12 and cap 5. -/
def sceneLine : State ℚ := scene 3 [0, 0, 0, 5, 0, 0, 20, 0, 0] still 5 12

/-- The second scenario of the specification: the same three particles with cap 0. -/
def sceneNoLinks : State ℚ := scene 3 [0, 0, 0, 5, 0, 0, 20, 0, 0] still 0 12

/-- Three particles at rest at the origin, threshold 12 and cap 1. -/
def sceneCluster : State ℚ := scene 3 [] still 1 12

/-- Two particles: particle 0 at rest at the origin, particle 1 at x = 1 moving towards
it with velocity -5/8 on x, so that one tick takes it to x = 31/32; threshold 1 and
cap 5. -/
def sceneApproach : State ℚ :=
  scene 2 [0, 0, 0, 1, 0, 0]
    (fun k => if k = 1 then { x := -5 / 8, y := 0, z := 0 } else { x := 0, y := 0, z := 0 }) 5 1

/-- Three moving particles, threshold 12 and cap 5: particle 0 leaves the origin with
velocity (5/8, 5/8, 0); particle 1 leaves (161/32, 1/32, 0) with velocity (-5/8, 0, 0);
particle 2 is on the right border of the plane, at (50, -40, 0), with velocity
(5/8, -5/8, 0), and crosses the right and the lower border. -/
def sceneBounce : State ℚ :=
  scene 3 [0, 0, 0, 161 / 32, 1 / 32, 0, 50, -40, 0]
    (fun k => if k = 0 then { x := 5 / 8, y := 5 / 8, z := 0 }
      else if k = 1 then { x := -5 / 8, y := 0, z := 0 }
      else { x := 5 / 8, y := -5 / 8, z := 0 }) 5 12

/-- One particle at x = 1 with velocity 1/2 on x: the sum 1 + 1/40 is not a 32 bit
float. -/
def sceneInexact : State ℚ :=
  scene 1 [1, 0, 0] (fun _ => { x := 1 / 2, y := 0, z := 0 }) 5 12

/-- One particle on the right border of the plane, at x = 50 = maxX / 2, with
velocity 2^-26 on x: the sum 50 + 2^-26 / 20 is above the border and rounds to 50. -/
def sceneGraze : State ℚ :=
  scene 1 [50, 0, 0] (fun _ => { x := 1 / 2 ^ 26, y := 0, z := 0 }) 5 12

/-- A full store: `maxParticleCount` active particles at rest at the origin. -/
def sceneFull : State ℚ := scene maxParticleCount [] still 5 12

end Scenes

/-! ## Loops as folds -/

section Folds

variable {σ α : Type}

theorem foldl_inv (P : σ → Prop) (f : σ → α → σ) (h : ∀ s a, P s → P (f s a)) :
    ∀ (l : List α) (s : σ), P s → P (l.foldl f s) := by
  intro l
  induction l with
  | nil => intro s hs; simpa using hs
  | cons a l ih => intro s hs; simpa using ih (f s a) (h s a hs)

theorem foldl_range'_inv (P : Nat → σ → Prop) (f : σ → Nat → σ) :
    ∀ (len a : Nat) (s : σ),
      (∀ k t, a ≤ k → k < a + len → P k t → P (k + 1) (f t k)) →
      P a s → P (a + len) ((List.range' a len).foldl f s) := by
  intro len
  induction len with
  | zero => intro a s _ hs; simpa using hs
  | succ len ih =>
    intro a s h hs
    rw [List.range'_succ, List.foldl_cons]
    have h1 : P (a + 1) (f s a) := h a s (le_refl a) (by omega) hs
    have h2 := ih (a + 1) (f s a) (fun k t hk1 hk2 hP => h k t (by omega) (by omega) hP) h1
    have e : a + 1 + len = a + (len + 1) := by omega
    rw [e] at h2
    exact h2

theorem foldl_range_inv (P : Nat → σ → Prop) (f : σ → Nat → σ) (n : Nat) (s : σ)
    (h : ∀ k t, k < n → P k t → P (k + 1) (f t k)) (hs : P 0 s) :
    P n ((List.range n).foldl f s) := by
  have := foldl_range'_inv P f n 0 s (fun k t _ hk hP => h k t (by omega) hP) hs
  rw [List.range_eq_range']
  simpa using this

end Folds

section Basic

set_option linter.unusedSectionVars false

variable {R : Type} [LinearOrderedField R] {fround : R → R}

theorem f32set_apply (len : Nat) (a : Nat → R) (k : Nat) (v : R) (m : Nat) :
    f32set fround len a k v m = if k < len ∧ m = k then fround v else a m := by
  unfold f32set
  by_cases hk : k < len
  · by_cases hm : m = k
    · subst hm; simp [hk]
    · simp [hk, hm, Function.update_apply]
  · simp [hk]

theorem f32set_of_ne (len : Nat) (a : Nat → R) (k : Nat) (v : R) (m : Nat) (h : m ≠ k) :
    f32set fround len a k v m = a m := by
  rw [f32set_apply]; simp [h]

theorem resetLoop_apply (n : Nat) (pd : Nat → ParticleData R) (k : Nat) :
    resetLoop n pd k = if k < n then { pd k with numConnections := 0 } else pd k := by
  unfold resetLoop
  induction n with
  | zero => simp
  | succ n ih =>
    rw [List.range_succ, List.foldl_append, List.foldl_cons, List.foldl_nil, resetStep]
    by_cases hk : k = n
    · subst hk
      simp [ih]
    · rw [Function.update_noteq hk, ih]
      by_cases h1 : k < n
      · have h2 : k < n + 1 := by omega
        simp [h1, h2]
      · have h2 : ¬ k < n + 1 := by omega
        simp [h1, h2]

end Basic

/-! ## The motion step -/

section Motion

set_option linter.unusedSectionVars false

variable {R : Type} [LinearOrderedField R] {fround : R → R}

theorem moveParticle_particlePositions (i : Nat) (s : State R) (hi : i < maxParticleCount)
    (k : Nat) :
    (moveParticle fround i s).particlePositions k =
      if k = i * 3 + 0 then movedX fround s i else if k = i * 3 + 1 then movedY fround s i
      else s.particlePositions k := by
  have h0 : i * 3 + 0 < maxParticleCount * 3 := by omega
  have h1 : i * 3 + 1 < maxParticleCount * 3 := by omega
  have h01 : i * 3 + 1 ≠ i * 3 + 0 := by omega
  simp only [moveParticle, f32set_apply, movedX, movedY, h0, h1, true_and]
  by_cases hk1 : k = i * 3 + 1
  · subst hk1
    simp [h01]
  · by_cases hk0 : k = i * 3 + 0
    · subst hk0; simp
    · simp [hk0, hk1]

theorem moveParticle_particlesData (i : Nat) (s : State R) (hi : i < maxParticleCount)
    (k : Nat) :
    (moveParticle fround i s).particlesData k =
      if k = i then
        { velocity := movedVelocity fround s i
          numConnections := (s.particlesData i).numConnections }
      else s.particlesData k := by
  have hx := @moveParticle_particlePositions R _ fround i s hi (i * 3 + 0)
  have hy := @moveParticle_particlePositions R _ fround i s hi (i * 3 + 1)
  have h01 : i * 3 + 1 ≠ i * 3 + 0 := by omega
  simp only [if_true, h01, if_false] at hx hy
  by_cases hk : k = i
  · subst hk
    simp only [if_true]
    show Function.update s.particlesData k _ k = _
    rw [Function.update_same]
    have hx2 : (moveParticle fround k s).particlePositions (k * 3) = movedX fround s k := hx
    simp only [moveParticle] at hx hy hx2
    simp only [movedVelocity, hx, hy, hx2]
  · simp only [hk, if_false]
    show Function.update s.particlesData i _ k = _
    rw [Function.update_noteq hk]

theorem bump_velocity (pd : Nat → ParticleData R) (k m : Nat) :
    (bump pd k m).velocity = (pd m).velocity := by
  unfold bump
  by_cases h : m = k
  · subst h; simp
  · rw [Function.update_noteq h]

theorem bump_numConnections (pd : Nat → ParticleData R) (k m : Nat) :
    (bump pd k m).numConnections =
      if m = k then (pd m).numConnections + 1 else (pd m).numConnections := by
  unfold bump
  by_cases h : m = k
  · subst h; simp
  · rw [Function.update_noteq h]; simp [h]

theorem SameMotion.same_refl (t : State R) : SameMotion t t :=
  ⟨rfl, rfl, rfl, rfl, rfl, rfl, rfl, fun _ => rfl⟩

theorem SameMotion.chain {t u v : State R} (h1 : SameMotion t u) (h2 : SameMotion u v) :
    SameMotion t v :=
  ⟨h2.sizes.trans h1.sizes, h2.maxX.trans h1.maxX, h2.maxY.trans h1.maxY,
    h2.particleCount.trans h1.particleCount, h2.effectController.trans h1.effectController,
    h2.particlesDrawCount.trans h1.particlesDrawCount,
    h2.particlePositions.trans h1.particlePositions,
    fun k => (h2.velocity k).trans (h1.velocity k)⟩

theorem addEdge_sameMotion (i j : Nat) (d : R) (f : Frame R) :
    SameMotion f.st (addEdge fround i j d f).st :=
  ⟨rfl, rfl, rfl, rfl, rfl, rfl, rfl, fun k => by
    show (bump (bump f.st.particlesData i) j k).velocity = _
    rw [bump_velocity, bump_velocity]⟩

theorem pairStep_sameMotion (sqrt fround : R → R) (i : Nat) (f : Frame R) (j : Nat) :
    SameMotion f.st (pairStep sqrt fround i f j).st := by
  unfold pairStep
  split_ifs
  · exact SameMotion.same_refl _
  · exact addEdge_sameMotion _ _ _ _
  · exact SameMotion.same_refl _

theorem innerLoop_sameMotion (sqrt fround : R → R) (i : Nat) (f : Frame R) :
    SameMotion f.st (innerLoop sqrt fround i f).st := by
  unfold innerLoop
  exact foldl_inv (fun g => SameMotion f.st g.st) (pairStep sqrt fround i)
    (fun g j hg => hg.chain (pairStep_sameMotion sqrt fround i g j)) _ f (SameMotion.same_refl _)

theorem scanRow_sameMotion (sqrt fround : R → R) (f : Frame R) (i : Nat) :
    SameMotion f.st (scanRow sqrt fround f i).st := by
  unfold scanRow
  split_ifs
  · exact SameMotion.same_refl _
  · exact innerLoop_sameMotion sqrt fround i f

theorem Moved.of_sameMotion {s t u : State R} {m : Nat} (h : Moved fround s m t)
    (hu : SameMotion t u) : Moved fround s m u :=
  ⟨hu.sizes.trans h.sizes, hu.maxX.trans h.maxX, hu.maxY.trans h.maxY,
    hu.particleCount.trans h.particleCount, hu.effectController.trans h.effectController,
    hu.particlesDrawCount.trans h.particlesDrawCount,
    fun i => by rw [hu.particlePositions]; exact h.posX i,
    fun i => by rw [hu.particlePositions]; exact h.posY i,
    fun i => by rw [hu.particlePositions]; exact h.posZ i,
    fun i => (hu.velocity i).trans (h.velocity i)⟩

theorem Moved.zero (s : State R) : Moved fround s 0 s :=
  ⟨rfl, rfl, rfl, rfl, rfl, rfl, fun _ => by simp, fun _ => by simp, fun _ => rfl,
    fun _ => by simp⟩

theorem initFrame_sameMotion (s : State R) : SameMotion s (initFrame s).st :=
  ⟨rfl, rfl, rfl, rfl, rfl, rfl, rfl, fun k => by
    show (resetLoop s.particleCount s.particlesData k).velocity = _
    rw [resetLoop_apply]
    split_ifs <;> rfl⟩

theorem Moved.moved_move {s t : State R} {m : Nat} (h : Moved fround s m t)
    (hm : m < maxParticleCount) : Moved fround s (m + 1) (moveParticle fround m t) := by
  have hX : movedX fround t m = movedX fround s m := by
    simp only [movedX, h.posX m, h.velocity m, lt_irrefl, if_false]
  have hY : movedY fround t m = movedY fround s m := by
    simp only [movedY, h.posY m, h.velocity m, lt_irrefl, if_false]
  have hV : movedVelocity fround t m = movedVelocity fround s m := by
    simp only [movedVelocity, hX, hY, h.velocity m, h.maxX, h.maxY, lt_irrefl, if_false]
  refine ⟨h.sizes, h.maxX, h.maxY, h.particleCount, h.effectController,
    h.particlesDrawCount, ?_, ?_, ?_, ?_⟩
  · intro i
    rw [moveParticle_particlePositions m t hm, h.posX i]
    by_cases him : i = m
    · subst him; simp [hX]
    · have h1 : i * 3 + 0 ≠ m * 3 + 0 := by omega
      have h2 : i * 3 + 0 ≠ m * 3 + 1 := by omega
      have h3 : i < m + 1 ↔ i < m := by omega
      simp only [h1, h2, if_false, h3]
  · intro i
    rw [moveParticle_particlePositions m t hm, h.posY i]
    by_cases him : i = m
    · subst him
      have h1 : i * 3 + 1 ≠ i * 3 + 0 := by omega
      simp [hY, h1]
    · have h1 : i * 3 + 1 ≠ m * 3 + 0 := by omega
      have h2 : i * 3 + 1 ≠ m * 3 + 1 := by omega
      have h3 : i < m + 1 ↔ i < m := by omega
      simp only [h1, h2, if_false, h3]
  · intro i
    rw [moveParticle_particlePositions m t hm, h.posZ i]
    have h1 : i * 3 + 2 ≠ m * 3 + 0 := by omega
    have h2 : i * 3 + 2 ≠ m * 3 + 1 := by omega
    simp only [h1, h2, if_false]
  · intro i
    rw [moveParticle_particlesData m t hm]
    by_cases him : i = m
    · subst him; simp [hV]
    · have h3 : i < m + 1 ↔ i < m := by omega
      simp only [him, if_false, h3]
      exact h.velocity i

theorem Moved.step (sqrt fround : R → R) {s : State R} {f : Frame R} {m : Nat}
    (h : Moved fround s m f.st) (hm : m < maxParticleCount) :
    Moved fround s (m + 1) (outerStep sqrt fround f m).st := by
  unfold outerStep
  exact (h.moved_move hm).of_sameMotion
    (scanRow_sameMotion sqrt fround { f with st := moveParticle fround m f.st } m)

theorem frameAtRow_moved (sqrt fround : R → R) (s : State R) (m : Nat)
    (hm : m ≤ maxParticleCount) :
    Moved fround s m (frameAtRow sqrt fround s m).st := by
  unfold frameAtRow
  exact foldl_range_inv (fun k g => Moved fround s k g.st) (outerStep sqrt fround) m (initFrame s)
    (fun k g hk hg => hg.step sqrt fround (by omega))
    ((Moved.zero s).of_sameMotion (initFrame_sameMotion s))

theorem tickFrame_eq_frameAtRow (sqrt fround : R → R) (s : State R) :
    tickFrame sqrt fround s = frameAtRow sqrt fround s s.particleCount := rfl

end Motion

/-! ## Connection counts outside the active window -/

section Counts

set_option linter.unusedSectionVars false

variable {R : Type} [LinearOrderedField R] {fround : R → R}

theorem moveParticle_numConnections (i : Nat) (s : State R) (k : Nat) :
    ((moveParticle fround i s).particlesData k).numConnections
      = (s.particlesData k).numConnections := by
  show (Function.update s.particlesData i _ k).numConnections = _
  by_cases h : k = i
  · subst h; simp
  · rw [Function.update_noteq h]

theorem addEdge_numConnections (i j : Nat) (d : R) (f : Frame R) (k : Nat) :
    ((addEdge fround i j d f).st.particlesData k).numConnections =
      (f.st.particlesData k).numConnections + (if k = i then 1 else 0)
        + (if k = j then 1 else 0) := by
  show (bump (bump f.st.particlesData i) j k).numConnections = _
  rw [bump_numConnections, bump_numConnections]
  split_ifs <;> rfl

theorem pairStep_numConnections_of_ne (sqrt fround : R → R) (i : Nat) (f : Frame R) (j k : Nat)
    (hi : k ≠ i) (hj : k ≠ j) :
    ((pairStep sqrt fround i f j).st.particlesData k).numConnections =
      (f.st.particlesData k).numConnections := by
  unfold pairStep
  split_ifs
  · rfl
  · rw [addEdge_numConnections]; simp [hi, hj]
  · rfl

theorem innerLoop_numConnections_out (sqrt fround : R → R) (i : Nat) (f : Frame R) (k : Nat)
    (hi : k ≠ i) (hk : f.st.particleCount ≤ k) :
    ((innerLoop sqrt fround i f).st.particlesData k).numConnections =
      (f.st.particlesData k).numConnections := by
  unfold innerLoop
  have := foldl_range'_inv
    (fun _ g => (g.st.particlesData k).numConnections = (f.st.particlesData k).numConnections)
    (pairStep sqrt fround i) (f.st.particleCount - (i + 1)) (i + 1) f
    (fun j g _ hj hg => by
      show ((pairStep sqrt fround i g j).st.particlesData k).numConnections = _
      rw [pairStep_numConnections_of_ne sqrt fround i g j k hi (by omega)]
      exact hg) rfl
  exact this

theorem scanRow_numConnections_out (sqrt fround : R → R) (f : Frame R) (i k : Nat)
    (hi : k ≠ i) (hk : f.st.particleCount ≤ k) :
    ((scanRow sqrt fround f i).st.particlesData k).numConnections =
      (f.st.particlesData k).numConnections := by
  unfold scanRow
  split_ifs
  · rfl
  · exact innerLoop_numConnections_out sqrt fround i f k hi hk

theorem outerStep_numConnections_out (sqrt fround : R → R) (f : Frame R) (i k : Nat)
    (hi : k ≠ i) (hk : f.st.particleCount ≤ k) :
    ((outerStep sqrt fround f i).st.particlesData k).numConnections =
      (f.st.particlesData k).numConnections := by
  unfold outerStep
  have h := scanRow_numConnections_out sqrt fround { f with st := moveParticle fround i f.st }
    i k hi hk
  rw [h]
  exact moveParticle_numConnections i f.st k

theorem outerStep_particleCount (sqrt fround : R → R) (f : Frame R) (i : Nat) :
    (outerStep sqrt fround f i).st.particleCount = f.st.particleCount :=
  (scanRow_sameMotion sqrt fround { f with st := moveParticle fround i f.st } i).particleCount

theorem frameAtRow_particleCount (sqrt fround : R → R) (s : State R) (m : Nat) :
    (frameAtRow sqrt fround s m).st.particleCount = s.particleCount := by
  unfold frameAtRow
  exact foldl_inv (fun g => g.st.particleCount = s.particleCount) (outerStep sqrt fround)
    (fun g i hg => (outerStep_particleCount sqrt fround g i).trans hg) (List.range m)
    (initFrame s) rfl

theorem frameAtRow_numConnections_out (sqrt fround : R → R) (s : State R) (m k : Nat)
    (hm : m ≤ s.particleCount) (hk : s.particleCount ≤ k) :
    ((frameAtRow sqrt fround s m).st.particlesData k).numConnections =
      (s.particlesData k).numConnections := by
  have := foldl_range_inv
    (fun _ g => g.st.particleCount = s.particleCount ∧
      (g.st.particlesData k).numConnections = (s.particlesData k).numConnections)
    (outerStep sqrt fround) m (initFrame s)
    (fun i g hi hg => ⟨(outerStep_particleCount sqrt fround g i).trans hg.1, by
      show ((outerStep sqrt fround g i).st.particlesData k).numConnections = _
      rw [outerStep_numConnections_out sqrt fround g i k (by omega) (by rw [hg.1]; exact hk)]
      exact hg.2⟩)
    ⟨rfl, by
      show (resetLoop s.particleCount s.particlesData k).numConnections = _
      rw [resetLoop_apply]
      have : ¬ k < s.particleCount := by omega
      simp [this]⟩
  exact this.2

theorem tick_eq_some (sqrt fround : R → R) (s : State R)
    (hn : s.particleCount ≤ maxParticleCount) :
    tick sqrt fround s = some { (tickFrame sqrt fround s).st with
      linesDrawCount := (tickFrame sqrt fround s).numConnected * 2 } := by
  unfold tick
  rw [if_pos hn]

end Counts

/-! ## Motion and frame of one tick -/

section TickMotion

variable {R : Type} [LinearOrderedField R] {fround : R → R}

/-- C9, amended: for every active particle, one tick stores the 32 bit float nearest
to x + velocity.x / 20 as the new x and the one nearest to y + velocity.y / 20 as the
new y, without clamping, and negates a velocity component exactly when the stored
coordinate lies strictly outside the plane on that axis (below -max/2 or above
max/2); otherwise the component keeps its value. -/
theorem tick_motion_step (sqrt fround : R → R) (s : State R)
    (hn : s.particleCount ≤ maxParticleCount) :
    ∃ t, tick sqrt fround s = some t ∧ ∀ i, i < s.particleCount →
      t.particlePositions (i * 3 + 0)
        = fround (s.particlePositions (i * 3 + 0) + (s.particlesData i).velocity.x / 20) ∧
      t.particlePositions (i * 3 + 1)
        = fround (s.particlePositions (i * 3 + 1) + (s.particlesData i).velocity.y / 20) ∧
      (t.particlesData i).velocity.x
        = (if t.particlePositions (i * 3 + 0) < - s.maxX / 2
              ∨ t.particlePositions (i * 3 + 0) > s.maxX / 2
            then - (s.particlesData i).velocity.x else (s.particlesData i).velocity.x) ∧
      (t.particlesData i).velocity.y
        = (if t.particlePositions (i * 3 + 1) < - s.maxY / 2
              ∨ t.particlePositions (i * 3 + 1) > s.maxY / 2
            then - (s.particlesData i).velocity.y else (s.particlesData i).velocity.y) := by
  refine ⟨_, tick_eq_some sqrt fround s hn, ?_⟩
  intro i hi
  have hM := frameAtRow_moved sqrt fround s s.particleCount hn
  rw [← tickFrame_eq_frameAtRow] at hM
  have hx : (tickFrame sqrt fround s).st.particlePositions (i * 3 + 0) = movedX fround s i := by
    rw [hM.posX i, if_pos hi]
  have hy : (tickFrame sqrt fround s).st.particlePositions (i * 3 + 1) = movedY fround s i := by
    rw [hM.posY i, if_pos hi]
  have hv : ((tickFrame sqrt fround s).st.particlesData i).velocity = movedVelocity fround s i := by
    rw [hM.velocity i, if_pos hi]
  show (tickFrame sqrt fround s).st.particlePositions (i * 3 + 0) = _ ∧
    (tickFrame sqrt fround s).st.particlePositions (i * 3 + 1) = _ ∧
    ((tickFrame sqrt fround s).st.particlesData i).velocity.x
      = (if (tickFrame sqrt fround s).st.particlePositions (i * 3 + 0) < _ ∨
            (tickFrame sqrt fround s).st.particlePositions (i * 3 + 0) > _ then _ else _) ∧
    ((tickFrame sqrt fround s).st.particlesData i).velocity.y
      = (if (tickFrame sqrt fround s).st.particlePositions (i * 3 + 1) < _ ∨
            (tickFrame sqrt fround s).st.particlePositions (i * 3 + 1) > _ then _ else _)
  rw [hx, hy, hv]
  exact ⟨rfl, rfl, rfl, rfl⟩

/-- Witness of C9 amended on the bounce scene: particle 0 moves from the origin to
(1/32, 1/32) and keeps its velocity; particle 2 moves from (50, -40) to
(1601/32, -1281/32), outside the plane on both axes, and both components of its
velocity are negated. -/
theorem tick_motion_step_witness :
    sceneBounce.particleCount ≤ maxParticleCount ∧
    ∃ t, tick ratSqrt fround32 sceneBounce = some t ∧
      (∀ i, i < sceneBounce.particleCount →
        t.particlePositions (i * 3 + 0)
          = fround32 (sceneBounce.particlePositions (i * 3 + 0)
              + (sceneBounce.particlesData i).velocity.x / 20) ∧
        t.particlePositions (i * 3 + 1)
          = fround32 (sceneBounce.particlePositions (i * 3 + 1)
              + (sceneBounce.particlesData i).velocity.y / 20) ∧
        (t.particlesData i).velocity.x
          = (if t.particlePositions (i * 3 + 0) < - sceneBounce.maxX / 2
                ∨ t.particlePositions (i * 3 + 0) > sceneBounce.maxX / 2
              then - (sceneBounce.particlesData i).velocity.x
              else (sceneBounce.particlesData i).velocity.x) ∧
        (t.particlesData i).velocity.y
          = (if t.particlePositions (i * 3 + 1) < - sceneBounce.maxY / 2
                ∨ t.particlePositions (i * 3 + 1) > sceneBounce.maxY / 2
              then - (sceneBounce.particlesData i).velocity.y
              else (sceneBounce.particlesData i).velocity.y)) ∧
      t.particlePositions (0 * 3 + 0) = 1 / 32 ∧ t.particlePositions (0 * 3 + 1) = 1 / 32 ∧
      (t.particlesData 0).velocity.x = 5 / 8 ∧ (t.particlesData 0).velocity.y = 5 / 8 ∧
      t.particlePositions (2 * 3 + 0) = 1601 / 32 ∧
      t.particlePositions (2 * 3 + 1) = -1281 / 32 ∧
      (t.particlesData 2).velocity.x = -5 / 8 ∧ (t.particlesData 2).velocity.y = 5 / 8 := by
  obtain ⟨t, ht, h⟩ := tick_motion_step ratSqrt fround32 sceneBounce (by decide)
  have e : t = { (tickFrame ratSqrt fround32 sceneBounce).st with
      linesDrawCount := (tickFrame ratSqrt fround32 sceneBounce).numConnected * 2 } :=
    Option.some.inj (ht.symm.trans (tick_eq_some ratSqrt fround32 sceneBounce (by decide)))
  refine ⟨by decide, t, ht, h, ?_⟩
  rw [e]
  show (tickFrame ratSqrt fround32 sceneBounce).st.particlePositions (0 * 3 + 0) = 1 / 32 ∧
    (tickFrame ratSqrt fround32 sceneBounce).st.particlePositions (0 * 3 + 1) = 1 / 32 ∧
    ((tickFrame ratSqrt fround32 sceneBounce).st.particlesData 0).velocity.x = 5 / 8 ∧
    ((tickFrame ratSqrt fround32 sceneBounce).st.particlesData 0).velocity.y = 5 / 8 ∧
    (tickFrame ratSqrt fround32 sceneBounce).st.particlePositions (2 * 3 + 0) = 1601 / 32 ∧
    (tickFrame ratSqrt fround32 sceneBounce).st.particlePositions (2 * 3 + 1) = -1281 / 32 ∧
    ((tickFrame ratSqrt fround32 sceneBounce).st.particlesData 2).velocity.x = -5 / 8 ∧
    ((tickFrame ratSqrt fround32 sceneBounce).st.particlesData 2).velocity.y = 5 / 8
  decide!

/-- C10: one tick leaves the position, the velocity and the connection count of every
particle at or beyond the active count as they were, and leaves the z coordinate and
the z velocity of every particle as they were. -/
theorem tick_frame (sqrt fround : R → R) (s : State R)
    (hn : s.particleCount ≤ maxParticleCount) :
    ∃ t, tick sqrt fround s = some t ∧
      (∀ i, s.particleCount ≤ i →
        t.particlePositions (i * 3 + 0) = s.particlePositions (i * 3 + 0) ∧
        t.particlePositions (i * 3 + 1) = s.particlePositions (i * 3 + 1) ∧
        t.particlePositions (i * 3 + 2) = s.particlePositions (i * 3 + 2) ∧
        (t.particlesData i).velocity = (s.particlesData i).velocity ∧
        (t.particlesData i).numConnections = (s.particlesData i).numConnections) ∧
      (∀ i, t.particlePositions (i * 3 + 2) = s.particlePositions (i * 3 + 2) ∧
        (t.particlesData i).velocity.z = (s.particlesData i).velocity.z) := by
  refine ⟨_, tick_eq_some sqrt fround s hn, ?_, ?_⟩
  · intro i hi
    have hM := frameAtRow_moved sqrt fround s s.particleCount hn
    have hlt : ¬ i < s.particleCount := by omega
    refine ⟨?_, ?_, ?_, ?_, ?_⟩
    · have := hM.posX i
      rw [if_neg hlt] at this
      exact this
    · have := hM.posY i
      rw [if_neg hlt] at this
      exact this
    · exact hM.posZ i
    · have := hM.velocity i
      rw [if_neg hlt] at this
      exact this
    · exact frameAtRow_numConnections_out sqrt fround s s.particleCount i (le_refl _) hi
  · intro i
    have hM := frameAtRow_moved sqrt fround s s.particleCount hn
    refine ⟨hM.posZ i, ?_⟩
    have := hM.velocity i
    show ((frameAtRow sqrt fround s s.particleCount).st.particlesData i).velocity.z = _
    rw [this]
    split_ifs <;> rfl

/-- Witness of C10 on the scene of the specification. -/
theorem tick_frame_witness :
    sceneLine.particleCount ≤ maxParticleCount ∧
    ∃ t, tick ratSqrt fround32 sceneLine = some t ∧
      (∀ i, sceneLine.particleCount ≤ i →
        t.particlePositions (i * 3 + 0) = sceneLine.particlePositions (i * 3 + 0) ∧
        t.particlePositions (i * 3 + 1) = sceneLine.particlePositions (i * 3 + 1) ∧
        t.particlePositions (i * 3 + 2) = sceneLine.particlePositions (i * 3 + 2) ∧
        (t.particlesData i).velocity = (sceneLine.particlesData i).velocity ∧
        (t.particlesData i).numConnections = (sceneLine.particlesData i).numConnections) ∧
      (∀ i, t.particlePositions (i * 3 + 2) = sceneLine.particlePositions (i * 3 + 2) ∧
        (t.particlesData i).velocity.z = (sceneLine.particlesData i).velocity.z) :=
  ⟨by decide, tick_frame ratSqrt fround32 sceneLine (by decide)⟩

end TickMotion

/-! ## Counting the recorded edges -/

section Counting

set_option linter.unusedSectionVars false

variable {R : Type} [LinearOrderedField R] {fround : R → R}

theorem pairStep_counters (sqrt fround : R → R) (i : Nat) (f : Frame R) (j : Nat) :
    ((pairStep sqrt fround i f j).vertexpos = f.vertexpos ∧
      (pairStep sqrt fround i f j).colorpos = f.colorpos ∧
      (pairStep sqrt fround i f j).numConnected = f.numConnected) ∨
    ((pairStep sqrt fround i f j).vertexpos = f.vertexpos + 6 ∧
      (pairStep sqrt fround i f j).colorpos = f.colorpos + 6 ∧
      (pairStep sqrt fround i f j).numConnected = f.numConnected + 1) := by
  unfold pairStep
  split_ifs
  · exact Or.inl ⟨rfl, rfl, rfl⟩
  · exact Or.inr ⟨rfl, rfl, rfl⟩
  · exact Or.inl ⟨rfl, rfl, rfl⟩

/-- Both write cursors stand at six times the number of edges. -/
theorem pairs_counters (sqrt fround : R → R) (i : Nat) (f : Frame R) (len : Nat)
    (hv : f.vertexpos = 6 * f.numConnected) (hc : f.colorpos = 6 * f.numConnected) :
    ((List.range' (i + 1) len).foldl (pairStep sqrt fround i) f).vertexpos =
        6 * ((List.range' (i + 1) len).foldl (pairStep sqrt fround i) f).numConnected ∧
    ((List.range' (i + 1) len).foldl (pairStep sqrt fround i) f).colorpos =
        6 * ((List.range' (i + 1) len).foldl (pairStep sqrt fround i) f).numConnected ∧
    ((List.range' (i + 1) len).foldl (pairStep sqrt fround i) f).numConnected
      ≤ f.numConnected + len := by
  have := foldl_range'_inv
    (fun j g => g.vertexpos = 6 * g.numConnected ∧ g.colorpos = 6 * g.numConnected ∧
      g.numConnected + (i + 1) ≤ f.numConnected + j)
    (pairStep sqrt fround i) len (i + 1) f
    (fun j g _ _ hg => by
      rcases pairStep_counters sqrt fround i g j with h | h
      · refine ⟨?_, ?_, ?_⟩
        · rw [h.1, h.2.2]; exact hg.1
        · rw [h.2.1, h.2.2]; exact hg.2.1
        · rw [h.2.2]; have := hg.2.2; omega
      · refine ⟨?_, ?_, ?_⟩
        · rw [h.1, h.2.2]; have := hg.1; omega
        · rw [h.2.1, h.2.2]; have := hg.2.1; omega
        · rw [h.2.2]; have := hg.2.2; omega)
    ⟨hv, hc, le_refl _⟩
  refine ⟨this.1, this.2.1, ?_⟩
  have := this.2.2
  omega

theorem pairBudget_step (m : Nat) (hm : 0 < m) :
    m * (m - 1) = 2 * (m - 1) + (m - 1) * (m - 1 - 1) := by
  cases m with
  | zero => omega
  | succ k =>
    cases k with
    | zero => rfl
    | succ k =>
      simp only [Nat.add_sub_cancel]
      ring

theorem outerStep_counters (sqrt fround : R → R) (f : Frame R) (i : Nat)
    (hv : f.vertexpos = 6 * f.numConnected) (hc : f.colorpos = 6 * f.numConnected) :
    (outerStep sqrt fround f i).vertexpos = 6 * (outerStep sqrt fround f i).numConnected ∧
    (outerStep sqrt fround f i).colorpos = 6 * (outerStep sqrt fround f i).numConnected ∧
    (outerStep sqrt fround f i).numConnected ≤ f.numConnected + (f.st.particleCount - (i + 1)) := by
  unfold outerStep scanRow
  split_ifs
  · exact ⟨hv, hc, Nat.le_add_right _ _⟩
  · exact pairs_counters sqrt fround i { f with st := moveParticle fround i f.st }
      (f.st.particleCount - (i + 1)) hv hc

/-- When the outer loop reaches row `i`, the edges recorded so far and the pairs still
to come fit in the `n * (n - 1) / 2` pairs of the active particles. -/
theorem frameAtRow_counters (sqrt fround : R → R) (s : State R) (i : Nat) (hi : i ≤ s.particleCount) :
    (frameAtRow sqrt fround s i).vertexpos = 6 * (frameAtRow sqrt fround s i).numConnected ∧
    (frameAtRow sqrt fround s i).colorpos = 6 * (frameAtRow sqrt fround s i).numConnected ∧
    2 * (frameAtRow sqrt fround s i).numConnected
        + (s.particleCount - i) * (s.particleCount - i - 1)
      ≤ s.particleCount * (s.particleCount - 1) := by
  have := foldl_range_inv
    (fun k g => g.st.particleCount = s.particleCount ∧
      g.vertexpos = 6 * g.numConnected ∧ g.colorpos = 6 * g.numConnected ∧
      2 * g.numConnected + (s.particleCount - k) * (s.particleCount - k - 1)
        ≤ s.particleCount * (s.particleCount - 1))
    (outerStep sqrt fround) i (initFrame s)
    (fun k g hk hg => by
      obtain ⟨hpc, hv, hc, hb⟩ := hg
      obtain ⟨hv2, hc2, hn2⟩ := outerStep_counters sqrt fround g k hv hc
      refine ⟨(outerStep_particleCount sqrt fround g k).trans hpc, hv2, hc2, ?_⟩
      have hstep := pairBudget_step (s.particleCount - k) (by omega)
      rw [hpc] at hn2
      have e1 : s.particleCount - (k + 1) = s.particleCount - k - 1 := by omega
      rw [e1] at hn2 ⊢
      rw [hstep] at hb
      omega)
    ⟨rfl, rfl, rfl, by
      show 2 * 0 + (s.particleCount - 0) * (s.particleCount - 0 - 1) ≤ _
      simp⟩
  exact ⟨this.2.1, this.2.2.1, this.2.2.2⟩

theorem frameAtPair_counters (sqrt fround : R → R) (s : State R) (i j : Nat)
    (hij : i < j) (hj : j < s.particleCount) :
    (frameAtPair sqrt fround s i j).vertexpos = 6 * (frameAtPair sqrt fround s i j).numConnected ∧
    (frameAtPair sqrt fround s i j).colorpos = 6 * (frameAtPair sqrt fround s i j).numConnected ∧
    2 * (frameAtPair sqrt fround s i j).numConnected + 2
      ≤ s.particleCount * (s.particleCount - 1) := by
  obtain ⟨hv, hc, hb⟩ := frameAtRow_counters sqrt fround s i (by omega)
  obtain ⟨hv2, hc2, hn2⟩ := pairs_counters sqrt fround i (frameAtScan sqrt fround s i) (j - (i + 1)) hv hc
  refine ⟨hv2, hc2, ?_⟩
  have hstep := pairBudget_step (s.particleCount - i) (by omega)
  rw [hstep] at hb
  have hn3 : (frameAtPair sqrt fround s i j).numConnected
      ≤ (frameAtRow sqrt fround s i).numConnected + (j - (i + 1)) := hn2
  have : 0 ≤ (s.particleCount - i - 1) * (s.particleCount - i - 1 - 1) := Nat.zero_le _
  omega

theorem pairBudget_le_segments (n : Nat) (hn : n ≤ maxParticleCount) :
    n * (n - 1) ≤ segments := by
  unfold segments
  exact Nat.mul_le_mul hn (le_trans (Nat.sub_le n 1) hn)

end Counting

section TickCounting

variable {R : Type} [LinearOrderedField R] {fround : R → R}

/-- C5: with at most `maxParticleCount` active particles and any parameters, one tick
records at most n (n - 1) / 2 edges, which is at most capacity (capacity - 1) / 2; the
valid vertex count 2 * numConnected is at most `segments`; and whenever a pair is
examined, the six indices that an edge would write in `positions` and in `colors`
are below their length `segments * 3`. -/
theorem tick_edge_bounds (sqrt fround : R → R) (s : State R)
    (hn : s.particleCount ≤ maxParticleCount) :
    ∃ t, tick sqrt fround s = some t ∧
      t.linesDrawCount = (tickFrame sqrt fround s).numConnected * 2 ∧
      (tickFrame sqrt fround s).numConnected ≤ s.particleCount * (s.particleCount - 1) / 2 ∧
      s.particleCount * (s.particleCount - 1) / 2
        ≤ maxParticleCount * (maxParticleCount - 1) / 2 ∧
      t.linesDrawCount ≤ segments ∧
      (tickFrame sqrt fround s).vertexpos ≤ segments * 3 ∧
      (tickFrame sqrt fround s).colorpos ≤ segments * 3 ∧
      ∀ i j, i < j → j < s.particleCount → ∀ k, k < 6 →
        (frameAtPair sqrt fround s i j).vertexpos + k < segments * 3 ∧
        (frameAtPair sqrt fround s i j).colorpos + k < segments * 3 := by
  obtain ⟨hv, hc, hb⟩ := frameAtRow_counters sqrt fround s s.particleCount (le_refl _)
  rw [← tickFrame_eq_frameAtRow] at hv hc hb
  have hseg := pairBudget_le_segments s.particleCount hn
  simp only [Nat.sub_self, Nat.zero_mul, Nat.add_zero] at hb
  refine ⟨_, tick_eq_some sqrt fround s hn, rfl, ?_, ?_, ?_, ?_, ?_, ?_⟩
  · omega
  · apply Nat.div_le_div_right
    exact Nat.mul_le_mul hn (Nat.sub_le_sub_right hn 1)
  · show (tickFrame sqrt fround s).numConnected * 2 ≤ segments
    omega
  · omega
  · omega
  · intro i j hij hj k hk
    obtain ⟨hv2, hc2, hb2⟩ := frameAtPair_counters sqrt fround s i j hij hj
    constructor <;> omega

/-- Witness of C5 on the scene of the specification. -/
theorem tick_edge_bounds_witness :
    sceneLine.particleCount ≤ maxParticleCount ∧
    ∃ t, tick ratSqrt fround32 sceneLine = some t ∧
      t.linesDrawCount = (tickFrame ratSqrt fround32 sceneLine).numConnected * 2 ∧
      (tickFrame ratSqrt fround32 sceneLine).numConnected
        ≤ sceneLine.particleCount * (sceneLine.particleCount - 1) / 2 ∧
      sceneLine.particleCount * (sceneLine.particleCount - 1) / 2
        ≤ maxParticleCount * (maxParticleCount - 1) / 2 ∧
      t.linesDrawCount ≤ segments ∧
      (tickFrame ratSqrt fround32 sceneLine).vertexpos ≤ segments * 3 ∧
      (tickFrame ratSqrt fround32 sceneLine).colorpos ≤ segments * 3 ∧
      ∀ i j, i < j → j < sceneLine.particleCount → ∀ k, k < 6 →
        (frameAtPair ratSqrt fround32 sceneLine i j).vertexpos + k < segments * 3 ∧
        (frameAtPair ratSqrt fround32 sceneLine i j).colorpos + k < segments * 3 :=
  ⟨by decide, tick_edge_bounds ratSqrt fround32 sceneLine (by decide)⟩

end TickCounting

/-! ## A cap of zero -/

section ZeroCap

variable {R : Type} [LinearOrderedField R] {fround : R → R}

theorem scanRow_of_capReached (sqrt fround : R → R) (f : Frame R) (i : Nat)
    (h : capReached f.st i = true) : scanRow sqrt fround f i = f := by
  unfold scanRow
  rw [if_pos h]

/-- C7: with `limitConnections` on and `maxConnections = 0`, one tick records no edge:
numConnected is 0, the valid vertex count is 0 and every active particle ends with a
connection count of 0, whatever the positions, velocities and threshold. -/
theorem tick_zero_cap (sqrt fround : R → R) (s : State R)
    (hn : s.particleCount ≤ maxParticleCount)
    (hl : s.effectController.limitConnections = true)
    (hm : s.effectController.maxConnections = 0) :
    ∃ t, tick sqrt fround s = some t ∧ (tickFrame sqrt fround s).numConnected = 0 ∧
      t.linesDrawCount = 0 ∧
      ∀ i, i < s.particleCount → (t.particlesData i).numConnections = 0 := by
  have key := foldl_range_inv
    (fun _ g => g.st.effectController = s.effectController ∧ g.numConnected = 0 ∧
      ∀ i, i < s.particleCount → (g.st.particlesData i).numConnections = 0)
    (outerStep sqrt fround) s.particleCount (initFrame s)
    (fun k g _ hg => by
      obtain ⟨hec, hnc, hz⟩ := hg
      have hcap : capReached (moveParticle fround k g.st) k = true := by
        have e : (moveParticle fround k g.st).effectController = s.effectController := hec
        simp [capReached, e, hl, hm]
      have hstep : outerStep sqrt fround g k = { g with st := moveParticle fround k g.st } :=
        scanRow_of_capReached sqrt fround { g with st := moveParticle fround k g.st } k hcap
      rw [hstep]
      refine ⟨hec, hnc, ?_⟩
      intro i hi
      show ((moveParticle fround k g.st).particlesData i).numConnections = 0
      rw [moveParticle_numConnections]
      exact hz i hi)
    ⟨rfl, rfl, by
      intro i hi
      show (resetLoop s.particleCount s.particlesData i).numConnections = 0
      rw [resetLoop_apply, if_pos hi]⟩
  have hnc : (tickFrame sqrt fround s).numConnected = 0 := key.2.1
  refine ⟨_, tick_eq_some sqrt fround s hn, hnc, ?_, ?_⟩
  · show (tickFrame sqrt fround s).numConnected * 2 = 0
    rw [hnc]
  · intro i hi
    exact key.2.2 i hi

/-- Witness of C7 on the second scenario of the specification. -/
theorem tick_zero_cap_witness :
    sceneNoLinks.particleCount ≤ maxParticleCount ∧
    sceneNoLinks.effectController.limitConnections = true ∧
    sceneNoLinks.effectController.maxConnections = 0 ∧
    ∃ t, tick ratSqrt fround32 sceneNoLinks = some t ∧ (tickFrame ratSqrt fround32 sceneNoLinks).numConnected = 0 ∧
      t.linesDrawCount = 0 ∧
      ∀ i, i < sceneNoLinks.particleCount → (t.particlesData i).numConnections = 0 :=
  ⟨by decide, rfl, rfl, tick_zero_cap ratSqrt fround32 sceneNoLinks (by decide) rfl rfl⟩

end ZeroCap

/-! ## What is written stays written -/

section Stability

set_option linter.unusedSectionVars false

variable {R : Type} [LinearOrderedField R] {fround : R → R}

theorem Later.later_refl (f : Frame R) : Later f f :=
  ⟨le_refl _, le_refl _, fun _ _ => rfl, fun _ _ => rfl⟩

theorem Later.later_chain {f g h : Frame R} (h1 : Later f g) (h2 : Later g h) : Later f h :=
  ⟨le_trans h1.vertexpos h2.vertexpos, le_trans h1.colorpos h2.colorpos,
    fun k hk => (h2.positions k (lt_of_lt_of_le hk h1.vertexpos)).trans (h1.positions k hk),
    fun k hk => (h2.colors k (lt_of_lt_of_le hk h1.colorpos)).trans (h1.colors k hk)⟩

theorem addEdge_positions_below (i j : Nat) (d : R) (f : Frame R) (k : Nat)
    (hk : k < f.vertexpos) : (addEdge fround i j d f).st.positions k = f.st.positions k := by
  simp only [addEdge]
  rw [f32set_of_ne _ _ _ _ _ (by omega), f32set_of_ne _ _ _ _ _ (by omega),
    f32set_of_ne _ _ _ _ _ (by omega), f32set_of_ne _ _ _ _ _ (by omega),
    f32set_of_ne _ _ _ _ _ (by omega), f32set_of_ne _ _ _ _ _ (by omega)]

theorem addEdge_colors_below (i j : Nat) (d : R) (f : Frame R) (k : Nat)
    (hk : k < f.colorpos) : (addEdge fround i j d f).st.colors k = f.st.colors k := by
  simp only [addEdge]
  rw [f32set_of_ne _ _ _ _ _ (by omega), f32set_of_ne _ _ _ _ _ (by omega),
    f32set_of_ne _ _ _ _ _ (by omega), f32set_of_ne _ _ _ _ _ (by omega),
    f32set_of_ne _ _ _ _ _ (by omega), f32set_of_ne _ _ _ _ _ (by omega)]

/-- The six colour entries of a new edge all hold its alpha. -/
theorem addEdge_colors_new (i j : Nat) (d : R) (f : Frame R) (k : Nat) (hk : k < 6)
    (hb : f.colorpos + k < segments * 3) :
    (addEdge fround i j d f).st.colors (f.colorpos + k)
      = fround (1 - d / f.st.effectController.minDistance) := by
  simp only [addEdge, f32set_apply]
  have : k = 0 ∨ k = 1 ∨ k = 2 ∨ k = 3 ∨ k = 4 ∨ k = 5 := by omega
  rcases this with h | h | h | h | h | h <;> subst h <;> simp at hb ⊢ <;> simp [hb]

/-- The six vertex entries of a new edge: x, y, z of `i`, then x, y, z of `j`. -/
theorem addEdge_positions_new (i j : Nat) (d : R) (f : Frame R) (k : Nat) (hk : k < 6)
    (hb : f.vertexpos + k < segments * 3) :
    (addEdge fround i j d f).st.positions (f.vertexpos + k) =
      fround ([f.st.particlePositions (i * 3 + 0), f.st.particlePositions (i * 3 + 1),
        f.st.particlePositions (i * 3 + 2), f.st.particlePositions (j * 3 + 0),
        f.st.particlePositions (j * 3 + 1), f.st.particlePositions (j * 3 + 2)].getD k 0) := by
  simp only [addEdge, f32set_apply]
  have : k = 0 ∨ k = 1 ∨ k = 2 ∨ k = 3 ∨ k = 4 ∨ k = 5 := by omega
  rcases this with h | h | h | h | h | h <;> subst h <;> simp at hb ⊢ <;> simp [hb]

theorem pairStep_later (sqrt fround : R → R) (i : Nat) (f : Frame R) (j : Nat) :
    Later f (pairStep sqrt fround i f j) := by
  unfold pairStep
  split_ifs
  · exact Later.later_refl f
  · exact ⟨Nat.le_add_right _ _, Nat.le_add_right _ _,
      fun k hk => addEdge_positions_below i j _ f k hk,
      fun k hk => addEdge_colors_below i j _ f k hk⟩
  · exact Later.later_refl f

theorem pairs_later (sqrt fround : R → R) (i : Nat) (l : List Nat) (f : Frame R) :
    Later f (l.foldl (pairStep sqrt fround i) f) :=
  foldl_inv (fun g => Later f g) (pairStep sqrt fround i)
    (fun g j hg => hg.later_chain (pairStep_later sqrt fround i g j)) l f (Later.later_refl f)

theorem outerStep_later (sqrt fround : R → R) (f : Frame R) (i : Nat) :
    Later f (outerStep sqrt fround f i) := by
  have h1 : Later f { f with st := moveParticle fround i f.st } :=
    ⟨le_refl _, le_refl _, fun _ _ => rfl, fun _ _ => rfl⟩
  refine h1.later_chain ?_
  unfold outerStep scanRow
  split_ifs
  · exact Later.later_refl _
  · exact pairs_later sqrt fround i _ _

theorem rows_later (sqrt fround : R → R) (l : List Nat) (f : Frame R) :
    Later f (l.foldl (outerStep sqrt fround) f) :=
  foldl_inv (fun g => Later f g) (outerStep sqrt fround)
    (fun g i hg => hg.later_chain (outerStep_later sqrt fround g i)) l f (Later.later_refl f)

theorem foldl_range'_split {σ : Type} (f : σ → Nat → σ) (l1 l2 : Nat) :
    ∀ (a : Nat) (s : σ), (List.range' a (l1 + l2)).foldl f s =
      (List.range' (a + l1) l2).foldl f ((List.range' a l1).foldl f s) := by
  induction l1 with
  | zero => intro a s; simp
  | succ l1 ih =>
    intro a s
    have e : l1 + 1 + l2 = (l1 + l2) + 1 := by omega
    rw [e, List.range'_succ, List.foldl_cons, List.range'_succ, List.foldl_cons, ih (a + 1) (f s a)]
    have e2 : a + 1 + l1 = a + (l1 + 1) := by omega
    rw [e2]

/-- The outer loop of `tick` goes through row `i`. -/
theorem tickFrame_through_row (sqrt fround : R → R) (s : State R) (i : Nat) (hi : i < s.particleCount) :
    tickFrame sqrt fround s = (List.range' (i + 1) (s.particleCount - (i + 1))).foldl (outerStep sqrt fround)
      (outerStep sqrt fround (frameAtRow sqrt fround s i) i) := by
  unfold tickFrame frameAtRow
  rw [List.range_eq_range', List.range_eq_range']
  have e : s.particleCount = i + ((s.particleCount - (i + 1)) + 1) := by omega
  conv_lhs => rw [e]
  rw [foldl_range'_split (outerStep sqrt fround) i _ 0 (initFrame s)]
  have e2 : s.particleCount - (i + 1) + 1 = 1 + (s.particleCount - (i + 1)) := by omega
  rw [e2, foldl_range'_split (outerStep sqrt fround) 1 _ (0 + i)]
  simp [List.range'_succ]

/-- An entered row goes through each of its pairs: the body of the outer loop is the
inner loop body applied at the frame where the pair is examined, followed by the rest
of the row. -/
theorem outerStep_through_pair (sqrt fround : R → R) (s : State R) (i j : Nat)
    (hij : i < j) (hj : j < s.particleCount)
    (hrow : capReached (frameAtScan sqrt fround s i).st i = false) :
    outerStep sqrt fround (frameAtRow sqrt fround s i) i =
      (List.range' (j + 1) (s.particleCount - (j + 1))).foldl (pairStep sqrt fround i)
        (pairStep sqrt fround i (frameAtPair sqrt fround s i j) j) := by
  have hpc : (moveParticle fround i (frameAtRow sqrt fround s i).st).particleCount = s.particleCount :=
    frameAtRow_particleCount sqrt fround s i
  have h1 : outerStep sqrt fround (frameAtRow sqrt fround s i) i = innerLoop sqrt fround i (frameAtScan sqrt fround s i) := by
    show scanRow sqrt fround (frameAtScan sqrt fround s i) i = _
    unfold scanRow
    rw [hrow]
    simp
  rw [h1]
  unfold innerLoop frameAtPair
  have hpc2 : (frameAtScan sqrt fround s i).st.particleCount = s.particleCount := hpc
  rw [hpc2]
  have e : s.particleCount - (i + 1) = (j - (i + 1)) + (1 + (s.particleCount - (j + 1))) := by
    omega
  rw [e, foldl_range'_split (pairStep sqrt fround i) (j - (i + 1)) _ (i + 1),
    foldl_range'_split (pairStep sqrt fround i) 1 _ (i + 1 + (j - (i + 1)))]
  have e3 : i + 1 + (j - (i + 1)) = j := by omega
  rw [e3]
  simp [List.range'_succ]

theorem tickFrame_later_pair (sqrt fround : R → R) (s : State R) (i j : Nat)
    (hij : i < j) (hj : j < s.particleCount)
    (hrow : capReached (frameAtScan sqrt fround s i).st i = false) :
    Later (pairStep sqrt fround i (frameAtPair sqrt fround s i j) j) (tickFrame sqrt fround s) := by
  rw [tickFrame_through_row sqrt fround s i (by omega), outerStep_through_pair sqrt fround s i j hij hj hrow]
  exact (pairs_later sqrt fround i _ _).later_chain (rows_later sqrt fround _ _)

theorem frameAtPair_moved (sqrt fround : R → R) (s : State R) (i j : Nat)
    (hi : i < maxParticleCount) : Moved fround s (i + 1) (frameAtPair sqrt fround s i j).st := by
  have h1 := (frameAtRow_moved sqrt fround s i (by omega)).moved_move hi
  unfold frameAtPair
  refine h1.of_sameMotion ?_
  exact foldl_inv (fun g => SameMotion (frameAtScan sqrt fround s i).st g.st) (pairStep sqrt fround i)
    (fun g j hg => hg.chain (pairStep_sameMotion sqrt fround i g j)) _ _ (SameMotion.same_refl _)

end Stability

/-! ## The intensity of an edge -/

section Alpha

variable {R : Type} [LinearOrderedField R]

/-- The positions that `tick` reads when it examines the pair `(i, j)`: particle `i`
has made its move of this tick, particle `j` has not. -/
theorem frameAtPair_positions (sqrt fround : R → R) (s : State R) (i j : Nat)
    (hi : i < maxParticleCount) (hij : i < j) :
    (frameAtPair sqrt fround s i j).st.particlePositions (i * 3 + 0)
      = fround (s.particlePositions (i * 3 + 0) + (s.particlesData i).velocity.x / 20) ∧
    (frameAtPair sqrt fround s i j).st.particlePositions (i * 3 + 1)
      = fround (s.particlePositions (i * 3 + 1) + (s.particlesData i).velocity.y / 20) ∧
    (frameAtPair sqrt fround s i j).st.particlePositions (i * 3 + 2)
      = s.particlePositions (i * 3 + 2) ∧
    (frameAtPair sqrt fround s i j).st.particlePositions (j * 3 + 0)
      = s.particlePositions (j * 3 + 0) ∧
    (frameAtPair sqrt fround s i j).st.particlePositions (j * 3 + 1)
      = s.particlePositions (j * 3 + 1) ∧
    (frameAtPair sqrt fround s i j).st.particlePositions (j * 3 + 2)
      = s.particlePositions (j * 3 + 2) := by
  have hM := frameAtPair_moved sqrt fround s i j hi
  have h1 : i < i + 1 := Nat.lt_succ_self i
  have h2 : ¬ j < i + 1 := by omega
  refine ⟨?_, ?_, hM.posZ i, ?_, ?_, hM.posZ j⟩
  · rw [hM.posX i, if_pos h1]; rfl
  · rw [hM.posY i, if_pos h1]; rfl
  · rw [hM.posX j, if_neg h2]
  · rw [hM.posY j, if_neg h2]

/-- C8: let `tick` examine a pair `(i, j)`, `i < j`, in an entered row with `j` below
the cap, and let `dist` be the Euclidean distance between the position of `i` (after
its move of this tick) and the position of `j` (before its move). If `dist` is below
`minDistance`, the code reads this very distance, records the edge, alpha =
1 - dist / minDistance lies in (0, 1] (in exact arithmetic, the square root being
non-negative), and the six colour entries of the edge in the buffer left by the tick
all hold this alpha, as the 32 bit float that the colour buffer stores: alpha itself
whenever the conversion leaves it as it is, as in exact arithmetic. -/
theorem tick_edge_alpha (sqrt fround : R → R) (hsqrt : ∀ x, 0 ≤ sqrt x) (s : State R)
    (hn : s.particleCount ≤ maxParticleCount) (i j : Nat) (hij : i < j)
    (hj : j < s.particleCount)
    (hrow : capReached (frameAtScan sqrt fround s i).st i = false)
    (hcand : capReached (frameAtPair sqrt fround s i j).st j = false)
    (xi yi zi xj yj zj dist : R)
    (hxi : xi = fround (s.particlePositions (i * 3 + 0) + (s.particlesData i).velocity.x / 20))
    (hyi : yi = fround (s.particlePositions (i * 3 + 1) + (s.particlesData i).velocity.y / 20))
    (hzi : zi = s.particlePositions (i * 3 + 2))
    (hxj : xj = s.particlePositions (j * 3 + 0))
    (hyj : yj = s.particlePositions (j * 3 + 1))
    (hzj : zj = s.particlePositions (j * 3 + 2))
    (hd : dist
      = sqrt ((xi - xj) * (xi - xj) + (yi - yj) * (yi - yj) + (zi - zj) * (zi - zj)))
    (hlt : dist < s.effectController.minDistance) :
    ∃ t, tick sqrt fround s = some t ∧
      pairDist sqrt (frameAtPair sqrt fround s i j).st i j = dist ∧
      (pairStep sqrt fround i (frameAtPair sqrt fround s i j) j).numConnected
        = (frameAtPair sqrt fround s i j).numConnected + 1 ∧
      0 < 1 - dist / s.effectController.minDistance ∧
      1 - dist / s.effectController.minDistance ≤ 1 ∧
      (∀ k, k < 6 → t.colors ((frameAtPair sqrt fround s i j).colorpos + k) =
        fround (1 - dist / s.effectController.minDistance)) ∧
      (fround (1 - dist / s.effectController.minDistance)
          = 1 - dist / s.effectController.minDistance →
        ∀ k, k < 6 → t.colors ((frameAtPair sqrt fround s i j).colorpos + k) =
          1 - dist / s.effectController.minDistance) := by
  obtain ⟨p0, p1, p2, q0, q1, q2⟩ := frameAtPair_positions sqrt fround s i j (by omega) hij
  have hpd : pairDist sqrt (frameAtPair sqrt fround s i j).st i j = dist := by
    simp only [pairDist, p0, p1, p2, q0, q1, q2, hd, hxi, hyi, hzi, hxj, hyj, hzj]
  have hd0 : 0 ≤ dist := by rw [hd]; exact hsqrt _
  have hmin : 0 < s.effectController.minDistance := lt_of_le_of_lt hd0 hlt
  have hec : (frameAtPair sqrt fround s i j).st.effectController = s.effectController :=
    (frameAtPair_moved sqrt fround s i j (by omega)).effectController
  have hstep : pairStep sqrt fround i (frameAtPair sqrt fround s i j) j =
      addEdge fround i j dist (frameAtPair sqrt fround s i j) := by
    unfold pairStep
    rw [hcand, hec, hpd, if_pos hlt]
    simp
  have hcol : ∀ k, k < 6 →
      (tickFrame sqrt fround s).st.colors ((frameAtPair sqrt fround s i j).colorpos + k) =
        fround (1 - dist / s.effectController.minDistance) := by
    intro k hk
    obtain ⟨_, hc, hb⟩ := frameAtPair_counters sqrt fround s i j hij hj
    have hseg := pairBudget_le_segments s.particleCount hn
    have hlater := tickFrame_later_pair sqrt fround s i j hij hj hrow
    rw [hstep] at hlater
    have h1 := hlater.colors ((frameAtPair sqrt fround s i j).colorpos + k)
      (by show _ < (frameAtPair sqrt fround s i j).colorpos + 6; omega)
    rw [h1, addEdge_colors_new i j _ _ k hk (by omega), hec]
  refine ⟨_, tick_eq_some sqrt fround s hn, hpd, ?_, ?_, ?_, hcol, ?_⟩
  · rw [hstep]; rfl
  · have : dist / s.effectController.minDistance < 1 := (div_lt_one hmin).mpr hlt
    linarith
  · have : 0 ≤ dist / s.effectController.minDistance := div_nonneg hd0 (le_of_lt hmin)
    linarith
  · intro hex k hk
    exact (hcol k hk).trans hex

end Alpha

/-! ## Two runs from states that differ in stale data only -/

section TwoRuns

set_option linter.unusedSectionVars false

variable {R : Type} [LinearOrderedField R] {fround : R → R}

theorem foldl_rel {σ α : Type} (Q : σ → σ → Prop) (f : σ → α → σ)
    (h : ∀ s t a, Q s t → Q (f s a) (f t a)) :
    ∀ (l : List α) (s t : σ), Q s t → Q (l.foldl f s) (l.foldl f t) := by
  intro l
  induction l with
  | nil => intro s t hst; simpa using hst
  | cons a l ih => intro s t hst; simpa using ih (f s a) (f t a) (h s t a hst)

theorem moveParticle_congr (i : Nat) (t u : State R)
    (hX : u.maxX = t.maxX) (hY : u.maxY = t.maxY)
    (hp : u.particlePositions = t.particlePositions)
    (hd : u.particlesData = t.particlesData) :
    (moveParticle fround i u).particlePositions = (moveParticle fround i t).particlePositions ∧
    (moveParticle fround i u).particlesData = (moveParticle fround i t).particlesData := by
  constructor <;> simp only [moveParticle, hX, hY, hp, hd]

theorem Agree.agree_move {f g : Frame R} (h : Agree f g) (i : Nat) :
    Agree { f with st := moveParticle fround i f.st } { g with st := moveParticle fround i g.st } := by
  obtain ⟨hp, hd⟩ := moveParticle_congr i f.st g.st h.maxX h.maxY h.particlePositions
    h.particlesData
  exact ⟨h.maxX, h.maxY, h.particleCount, h.effectController, hp, hd, h.vertexpos, h.colorpos,
    h.numConnected, h.positions, h.colors⟩

theorem Agree.agree_capReached {f g : Frame R} (h : Agree f g) (k : Nat) :
    capReached g.st k = capReached f.st k := by
  simp only [LinkedPoints.capReached, h.effectController, h.particlesData]

theorem Agree.agree_pairDist {f g : Frame R} (h : Agree f g) (sqrt : R → R) (i j : Nat) :
    pairDist sqrt g.st i j = pairDist sqrt f.st i j := by
  simp only [LinkedPoints.pairDist, h.particlePositions]

theorem Agree.agree_addEdge {f g : Frame R} (h : Agree f g) (i j : Nat) (d : R) :
    Agree (addEdge fround i j d f) (addEdge fround i j d g) := by
  refine ⟨h.maxX, h.maxY, h.particleCount, h.effectController, h.particlePositions, ?_, ?_, ?_,
    ?_, ?_, ?_⟩
  · show bump (bump g.st.particlesData i) j = bump (bump f.st.particlesData i) j
    rw [h.particlesData]
  · show g.vertexpos + 6 = f.vertexpos + 6
    rw [h.vertexpos]
  · show g.colorpos + 6 = f.colorpos + 6
    rw [h.colorpos]
  · show g.numConnected + 1 = f.numConnected + 1
    rw [h.numConnected]
  · intro k hk hb
    have hk6 : k < f.vertexpos + 6 := hk
    by_cases hlow : k < f.vertexpos
    · rw [addEdge_positions_below i j d f k hlow,
        addEdge_positions_below i j d g k (by rw [h.vertexpos]; exact hlow)]
      exact h.positions k hlow hb
    · obtain ⟨c, rfl⟩ : ∃ c, k = f.vertexpos + c := ⟨k - f.vertexpos, by omega⟩
      have hc : c < 6 := by omega
      rw [addEdge_positions_new i j d f c hc hb]
      have e : f.vertexpos + c = g.vertexpos + c := by rw [h.vertexpos]
      rw [e, addEdge_positions_new i j d g c hc (by rw [← e]; exact hb), h.particlePositions]
  · intro k hk hb
    have hk6 : k < f.colorpos + 6 := hk
    by_cases hlow : k < f.colorpos
    · rw [addEdge_colors_below i j d f k hlow,
        addEdge_colors_below i j d g k (by rw [h.colorpos]; exact hlow)]
      exact h.colors k hlow hb
    · obtain ⟨c, rfl⟩ : ∃ c, k = f.colorpos + c := ⟨k - f.colorpos, by omega⟩
      have hc : c < 6 := by omega
      rw [addEdge_colors_new i j d f c hc hb]
      have e : f.colorpos + c = g.colorpos + c := by rw [h.colorpos]
      rw [e, addEdge_colors_new i j d g c hc (by rw [← e]; exact hb), h.effectController]

theorem Agree.agree_pairStep {f g : Frame R} (h : Agree f g) (sqrt fround : R → R) (i j : Nat) :
    Agree (pairStep sqrt fround i f j) (pairStep sqrt fround i g j) := by
  unfold LinkedPoints.pairStep
  rw [h.agree_capReached j, h.agree_pairDist sqrt i j, h.effectController]
  split_ifs
  · exact h
  · exact h.agree_addEdge i j _
  · exact h

theorem Agree.agree_scanRow {f g : Frame R} (h : Agree f g) (sqrt fround : R → R) (i : Nat) :
    Agree (scanRow sqrt fround f i) (scanRow sqrt fround g i) := by
  unfold LinkedPoints.scanRow
  rw [h.agree_capReached i]
  split_ifs
  · exact h
  · unfold innerLoop
    rw [h.particleCount]
    exact foldl_rel Agree (LinkedPoints.pairStep sqrt fround i) (fun a b j hab => hab.agree_pairStep sqrt fround i j)
      _ f g h

theorem Agree.agree_outerStep {f g : Frame R} (h : Agree f g) (sqrt fround : R → R) (i : Nat) :
    Agree (outerStep sqrt fround f i) (outerStep sqrt fround g i) := by
  unfold LinkedPoints.outerStep
  exact (h.agree_move i).agree_scanRow sqrt fround i

end TwoRuns

/-! ## Ticks without motion -/

section Still

set_option linter.unusedSectionVars false

variable {R : Type} [LinearOrderedField R] {fround : R → R}

theorem funext_by_coordinate (a b : Nat → R)
    (h0 : ∀ i, a (i * 3 + 0) = b (i * 3 + 0)) (h1 : ∀ i, a (i * 3 + 1) = b (i * 3 + 1))
    (h2 : ∀ i, a (i * 3 + 2) = b (i * 3 + 2)) : a = b := by
  funext k
  have hk : k = k / 3 * 3 + 0 ∨ k = k / 3 * 3 + 1 ∨ k = k / 3 * 3 + 2 := by omega
  rcases hk with h | h | h
  · rw [h]; exact h0 _
  · rw [h]; exact h1 _
  · rw [h]; exact h2 _

theorem particleData_eq (a b : ParticleData R) (hv : a.velocity = b.velocity)
    (hc : a.numConnections = b.numConnections) : a = b := by
  cases a; cases b
  simp only at hv hc
  rw [hv, hc]

theorem Moved.same_positions {s t u : State R} {m : Nat} (ht : Moved fround s m t) (hu : Moved fround s m u) :
    t.particlePositions = u.particlePositions :=
  funext_by_coordinate _ _ (fun i => (ht.posX i).trans (hu.posX i).symm)
    (fun i => (ht.posY i).trans (hu.posY i).symm) (fun i => (ht.posZ i).trans (hu.posZ i).symm)

theorem Moved.same_velocity {s t u : State R} {m : Nat} (ht : Moved fround s m t) (hu : Moved fround s m u)
    (k : Nat) : (t.particlesData k).velocity = (u.particlesData k).velocity :=
  (ht.velocity k).trans (hu.velocity k).symm

theorem movedVelocity_still (s : State R) (i : Nat)
    (hx : (s.particlesData i).velocity.x = 0) (hy : (s.particlesData i).velocity.y = 0) :
    movedVelocity fround s i = (s.particlesData i).velocity := by
  unfold movedVelocity
  rw [hx, hy]
  simp only [neg_zero, ite_self]
  rcases hv : (s.particlesData i).velocity with ⟨x, y, z⟩
  rw [hv] at hx hy
  simp only at hx hy
  rw [hx, hy]

theorem Moved.still {s t : State R} {m : Nat} (ht : Moved fround s m t)
    (hv : ∀ i, i < m → (s.particlesData i).velocity.x = 0 ∧ (s.particlesData i).velocity.y = 0)
    (hrep : ∀ i, i < m →
      fround (s.particlePositions (i * 3 + 0)) = s.particlePositions (i * 3 + 0) ∧
      fround (s.particlePositions (i * 3 + 1)) = s.particlePositions (i * 3 + 1)) :
    t.particlePositions = s.particlePositions ∧
    ∀ k, (t.particlesData k).velocity = (s.particlesData k).velocity := by
  constructor
  · apply funext_by_coordinate
    · intro i
      rw [ht.posX i]
      split_ifs with h
      · simp only [movedX, (hv i h).1, zero_div, add_zero]
        exact (hrep i h).1
      · rfl
    · intro i
      rw [ht.posY i]
      split_ifs with h
      · simp only [movedY, (hv i h).2, zero_div, add_zero]
        exact (hrep i h).2
      · rfl
    · exact ht.posZ
  · intro k
    rw [ht.velocity k]
    split_ifs with h
    · exact movedVelocity_still s k (hv k h).1 (hv k h).2
    · rfl

end Still

section StillTicks

variable {R : Type} [LinearOrderedField R] {fround : R → R}

theorem initFrame_agree_after_still_tick (sqrt fround : R → R) (s : State R)
    (hn : s.particleCount ≤ maxParticleCount)
    (hv : ∀ i, i < s.particleCount →
      (s.particlesData i).velocity.x = 0 ∧ (s.particlesData i).velocity.y = 0)
    (hrep : ∀ i, i < s.particleCount →
      fround (s.particlePositions (i * 3 + 0)) = s.particlePositions (i * 3 + 0) ∧
      fround (s.particlePositions (i * 3 + 1)) = s.particlePositions (i * 3 + 1)) :
    Agree (initFrame s) (initFrame { (tickFrame sqrt fround s).st with
      linesDrawCount := (tickFrame sqrt fround s).numConnected * 2 }) := by
  have hM := frameAtRow_moved sqrt fround s s.particleCount hn
  rw [← tickFrame_eq_frameAtRow] at hM
  obtain ⟨hpp, hvel⟩ := hM.still hv hrep
  refine ⟨hM.maxX, hM.maxY, hM.particleCount, hM.effectController, hpp, ?_, rfl, rfl, rfl,
    fun k hk _ => absurd hk (Nat.not_lt_zero k), fun k hk _ => absurd hk (Nat.not_lt_zero k)⟩
  show resetLoop (tickFrame sqrt fround s).st.particleCount
      (tickFrame sqrt fround s).st.particlesData
    = resetLoop s.particleCount s.particlesData
  funext k
  rw [resetLoop_apply, resetLoop_apply, hM.particleCount]
  split_ifs with h
  · exact particleData_eq _ _ (hvel k) rfl
  · exact particleData_eq _ _ (hvel k)
      (frameAtRow_numConnections_out sqrt fround s s.particleCount k (le_refl _) (by omega))

/-- C6: when every active particle has zero velocity on x and y (its stored x and y
being 32 bit floats, as the entries of a `Float32Array` are), a tick leaves the
particle positions as they were, and a second tick run right after the first gives
the same positions, the same numConnected (valid vertex count) and the same entries
in the valid prefix of the edge-vertex buffer and of the edge-colour buffer, whatever
connection counts and buffer contents the first tick started from. -/
theorem tick_twice_still (sqrt fround : R → R) (s : State R)
    (hn : s.particleCount ≤ maxParticleCount)
    (hv : ∀ i, i < s.particleCount →
      (s.particlesData i).velocity.x = 0 ∧ (s.particlesData i).velocity.y = 0)
    (hrep : ∀ i, i < s.particleCount →
      fround (s.particlePositions (i * 3 + 0)) = s.particlePositions (i * 3 + 0) ∧
      fround (s.particlePositions (i * 3 + 1)) = s.particlePositions (i * 3 + 1)) :
    ∃ t u, tick sqrt fround s = some t ∧ tick sqrt fround t = some u ∧
      t.particlePositions = s.particlePositions ∧
      u.particlePositions = t.particlePositions ∧
      (tickFrame sqrt fround t).numConnected = (tickFrame sqrt fround s).numConnected ∧
      u.linesDrawCount = t.linesDrawCount ∧
      ∀ k, k < t.linesDrawCount * 3 → u.positions k = t.positions k ∧ u.colors k = t.colors k := by
  have hM := frameAtRow_moved sqrt fround s s.particleCount hn
  rw [← tickFrame_eq_frameAtRow] at hM
  obtain ⟨hpp, _⟩ := hM.still hv hrep
  have hA0 := initFrame_agree_after_still_tick sqrt fround s hn hv hrep
  have hA : Agree (tickFrame sqrt fround s)
      (tickFrame sqrt fround { (tickFrame sqrt fround s).st with
        linesDrawCount := (tickFrame sqrt fround s).numConnected * 2 }) := by
    unfold tickFrame
    have e : ({ (tickFrame sqrt fround s).st with
      linesDrawCount := (tickFrame sqrt fround s).numConnected * 2 } : State R).particleCount
        = s.particleCount := hM.particleCount
    unfold tickFrame at e
    rw [e]
    exact foldl_rel Agree (outerStep sqrt fround)
      (fun a b i hab => hab.agree_outerStep sqrt fround i) _ _ _ hA0
  obtain ⟨hvp, hcp, hb⟩ := frameAtRow_counters sqrt fround s s.particleCount (le_refl _)
  rw [← tickFrame_eq_frameAtRow] at hvp hcp hb
  have hseg := pairBudget_le_segments s.particleCount hn
  have hn2 : ({ (tickFrame sqrt fround s).st with
      linesDrawCount := (tickFrame sqrt fround s).numConnected * 2 } : State R).particleCount
        ≤ maxParticleCount := by
    show (tickFrame sqrt fround s).st.particleCount ≤ _
    rw [hM.particleCount]
    exact hn
  refine ⟨_, _, tick_eq_some sqrt fround s hn, tick_eq_some sqrt fround _ hn2,
    hpp, hA.particlePositions, hA.numConnected, ?_, ?_⟩
  · show (tickFrame sqrt fround _).numConnected * 2 = (tickFrame sqrt fround s).numConnected * 2
    rw [hA.numConnected]
  · intro k hk
    have hk2 : k < (tickFrame sqrt fround s).numConnected * 2 * 3 := hk
    exact ⟨hA.positions k (by omega) (by omega), hA.colors k (by omega) (by omega)⟩

/-- Witness of C6 on the scene of the specification, where nothing moves and every
coordinate (0, 5 and 20) is a 32 bit float. -/
theorem tick_twice_still_witness :
    sceneLine.particleCount ≤ maxParticleCount ∧
    (∀ i, i < sceneLine.particleCount →
      (sceneLine.particlesData i).velocity.x = 0 ∧ (sceneLine.particlesData i).velocity.y = 0) ∧
    (∀ i, i < sceneLine.particleCount →
      fround32 (sceneLine.particlePositions (i * 3 + 0)) = sceneLine.particlePositions (i * 3 + 0) ∧
      fround32 (sceneLine.particlePositions (i * 3 + 1))
        = sceneLine.particlePositions (i * 3 + 1)) ∧
    ∃ t u, tick ratSqrt fround32 sceneLine = some t ∧ tick ratSqrt fround32 t = some u ∧
      t.particlePositions = sceneLine.particlePositions ∧
      u.particlePositions = t.particlePositions ∧
      (tickFrame ratSqrt fround32 t).numConnected
        = (tickFrame ratSqrt fround32 sceneLine).numConnected ∧
      u.linesDrawCount = t.linesDrawCount ∧
      ∀ k, k < t.linesDrawCount * 3 → u.positions k = t.positions k ∧ u.colors k = t.colors k :=
  ⟨by decide, fun _ _ => ⟨rfl, rfl⟩, by decide!,
    tick_twice_still ratSqrt fround32 sceneLine (by decide) (fun _ _ => ⟨rfl, rfl⟩) (by decide!)⟩

end StillTicks

/-! ## Motion of all particles and the scan of section 4.4 -/

section Refinement

set_option linter.unusedSectionVars false

variable {R : Type} [LinearOrderedField R] {fround : R → R}

theorem foldl_range'_rel {σ τ : Type} (Q : Nat → σ → τ → Prop) (f : σ → Nat → σ)
    (g : τ → Nat → τ) :
    ∀ (len a : Nat) (s : σ) (t : τ),
      (∀ k u v, a ≤ k → k < a + len → Q k u v → Q (k + 1) (f u k) (g v k)) →
      Q a s t → Q (a + len) ((List.range' a len).foldl f s) ((List.range' a len).foldl g t) := by
  intro len
  induction len with
  | zero => intro a s t _ hst; simpa using hst
  | succ len ih =>
    intro a s t h hst
    rw [List.range'_succ, List.foldl_cons, List.foldl_cons]
    have h2 := ih (a + 1) (f s a) (g t a)
      (fun k u v hk1 hk2 hQ => h k u v (by omega) (by omega) hQ)
      (h a s t (le_refl a) (by omega) hst)
    have e : a + 1 + len = a + (len + 1) := by omega
    rw [e] at h2
    exact h2

theorem state_eq (t u : State R) (h1 : t.sizes = u.sizes) (h2 : t.maxX = u.maxX)
    (h3 : t.maxY = u.maxY) (h4 : t.particleCount = u.particleCount)
    (h5 : t.particlePositions = u.particlePositions) (h6 : t.particlesData = u.particlesData)
    (h7 : t.positions = u.positions) (h8 : t.colors = u.colors)
    (h9 : t.effectController = u.effectController)
    (h10 : t.particlesDrawCount = u.particlesDrawCount)
    (h11 : t.linesDrawCount = u.linesDrawCount) : t = u := by
  cases t; cases u
  simp only at h1 h2 h3 h4 h5 h6 h7 h8 h9 h10 h11
  simp only [h1, h2, h3, h4, h5, h6, h7, h8, h9, h10, h11]

theorem specMotion_moved (fround : R → R) (s : State R) :
    Moved fround s s.particleCount (specMotion fround s) := by
  refine ⟨rfl, rfl, rfl, rfl, rfl, rfl, ?_, ?_, ?_, ?_⟩
  · intro i
    have e1 : (i * 3 + 0) / 3 = i := by omega
    have e2 : (i * 3 + 0) % 3 = 0 := by omega
    simp only [specMotion, e1, e2, if_true, movedX]
  · intro i
    have e1 : (i * 3 + 1) / 3 = i := by omega
    have e2 : (i * 3 + 1) % 3 = 1 := by omega
    simp only [specMotion, e1, e2, if_true, movedY, one_ne_zero, if_false]
  · intro i
    have e1 : (i * 3 + 2) / 3 = i := by omega
    have e2 : (i * 3 + 2) % 3 = 2 := by omega
    simp [specMotion, e1, e2]
  · intro i
    by_cases h : i < s.particleCount
    · simp only [specMotion, h, if_true]
      rfl
    · simp only [specMotion, h, if_false]

theorem Staggered.start (fround : R → R) (s : State R) :
    Staggered fround s 0 (initFrame s) (specReset (specMotion fround s)) := by
  refine ⟨(Moved.zero s).of_sameMotion (initFrame_sameMotion s), ?_, ?_, rfl, rfl, rfl, rfl, rfl,
    rfl⟩
  · refine (specMotion_moved fround s).of_sameMotion
      ⟨rfl, rfl, rfl, rfl, rfl, rfl, rfl, fun k => ?_⟩
    show (if k < (specMotion fround s).particleCount
        then { (specMotion fround s).particlesData k with numConnections := 0 }
        else (specMotion fround s).particlesData k).velocity = _
    split_ifs <;> rfl
  · intro k
    show (resetLoop s.particleCount s.particlesData k).numConnections
      = (if k < s.particleCount
          then { (specMotion fround s).particlesData k with numConnections := 0 }
          else (specMotion fround s).particlesData k).numConnections
    rw [resetLoop_apply]
    by_cases h : k < s.particleCount
    · simp only [h, if_true]
    · simp only [h, if_false, specMotion]

theorem Staggered.advance {s : State R} {m : Nat} {f g : Frame R}
    (h : Staggered fround s m f g) (hm : m < maxParticleCount) :
    Staggered fround s (m + 1) { f with st := moveParticle fround m f.st } g :=
  ⟨h.moved.moved_move hm, h.allMoved,
    fun k => (moveParticle_numConnections m f.st k).trans (h.counts k),
    h.positions, h.colors, h.linesDrawCount, h.vertexpos, h.colorpos, h.numConnected⟩

/-- The test of lines 184 and 190 is the cap test of section 4.4. -/
theorem Staggered.cap {s : State R} {m : Nat} {f g : Frame R}
    (h : Staggered fround s m f g) (k : Nat) :
    capReached f.st k = true ↔
      (g.st.effectController.limitConnections = true ∧
        g.st.effectController.maxConnections ≤ (g.st.particlesData k).numConnections) := by
  have hec : f.st.effectController = g.st.effectController :=
    h.moved.effectController.trans h.allMoved.effectController.symm
  simp only [capReached, hec, h.counts k, Bool.and_eq_true, decide_eq_true_eq, ge_iff_le]

/-- One pair of an entered row: the body of the inner loop of `tick`, where `i` has
moved and `j` has not, against the step of section 4.4 reading `i` after the motion
and `j` before it. -/
theorem Staggered.pair (sqrt : R → R) {s : State R} {i : Nat} {f g : Frame R}
    (h : Staggered fround s (i + 1) f g) (hi : i < s.particleCount) (j : Nat) (hij : i < j) :
    Staggered fround s (i + 1) (pairStep sqrt fround i f j)
      (specPairStep sqrt fround (specMotion fround s).particlePositions s.particlePositions
        i g j) := by
  have hS := specMotion_moved fround s
  have h1 : i < i + 1 := Nat.lt_succ_self i
  have h2 : ¬ j < i + 1 := by omega
  have p0 : f.st.particlePositions (i * 3 + 0) = (specMotion fround s).particlePositions (i * 3) := by
    rw [h.moved.posX i, if_pos h1]
    exact ((hS.posX i).trans (if_pos hi)).symm
  have p1 : f.st.particlePositions (i * 3 + 1)
      = (specMotion fround s).particlePositions (i * 3 + 1) := by
    rw [h.moved.posY i, if_pos h1]
    exact ((hS.posY i).trans (if_pos hi)).symm
  have p2 : f.st.particlePositions (i * 3 + 2)
      = (specMotion fround s).particlePositions (i * 3 + 2) :=
    (h.moved.posZ i).trans (hS.posZ i).symm
  have q0 : f.st.particlePositions (j * 3 + 0) = s.particlePositions (j * 3) := by
    rw [h.moved.posX j, if_neg h2]
    rfl
  have q1 : f.st.particlePositions (j * 3 + 1) = s.particlePositions (j * 3 + 1) := by
    rw [h.moved.posY j, if_neg h2]
  have q2 : f.st.particlePositions (j * 3 + 2) = s.particlePositions (j * 3 + 2) :=
    h.moved.posZ j
  have hec : f.st.effectController = g.st.effectController :=
    h.moved.effectController.trans h.allMoved.effectController.symm
  have hcap := h.cap j
  unfold pairStep specPairStep
  by_cases hc : capReached f.st j = true
  · rw [if_pos hc, if_pos (hcap.mp hc)]
    exact h
  · rw [if_neg hc, if_neg (fun hh => hc (hcap.mpr hh))]
    simp only [pairDist, p0, p1, p2, q0, q1, q2, hec]
    split_ifs with hd
    · refine ⟨(h.moved).of_sameMotion (addEdge_sameMotion _ _ _ _), ?_, ?_, ?_, ?_, ?_, ?_, ?_,
        ?_⟩
      · exact h.allMoved.of_sameMotion ⟨rfl, rfl, rfl, rfl, rfl, rfl, rfl, fun k => by
          show (bump (bump g.st.particlesData i) j k).velocity = _
          rw [bump_velocity, bump_velocity]⟩
      · intro k
        show (bump (bump f.st.particlesData i) j k).numConnections
          = (bump (bump g.st.particlesData i) j k).numConnections
        simp only [bump_numConnections, h.counts]
      · simp only [addEdge, p0, p1, p2, q0, q1, q2, hec, h.positions, h.vertexpos]
      · simp only [addEdge, hec, h.colors, h.colorpos]
      · exact h.linesDrawCount
      · show f.vertexpos + 6 = g.vertexpos + 6
        rw [h.vertexpos]
      · show f.colorpos + 6 = g.colorpos + 6
        rw [h.colorpos]
      · show f.numConnected + 1 = g.numConnected + 1
        rw [h.numConnected]
    · exact h

theorem Staggered.row (sqrt : R → R) {s : State R} {i : Nat} {f g : Frame R}
    (h : Staggered fround s (i + 1) f g) (hi : i < s.particleCount) :
    Staggered fround s (i + 1) (scanRow sqrt fround f i)
      (specScanRow sqrt fround (specMotion fround s).particlePositions s.particlePositions
        g i) := by
  have hcap := h.cap i
  unfold scanRow specScanRow
  by_cases hc : capReached f.st i = true
  · rw [if_pos hc, if_pos (hcap.mp hc)]
    exact h
  · rw [if_neg hc, if_neg (fun hh => hc (hcap.mpr hh))]
    unfold innerLoop
    rw [h.moved.particleCount, h.allMoved.particleCount]
    exact foldl_range'_rel (fun _ u v => Staggered fround s (i + 1) u v) _ _ _ _ f g
      (fun j u v hj1 _ huv => huv.pair sqrt hi j (by omega)) h

theorem Staggered.finish {s : State R} {f g : Frame R}
    (h : Staggered fround s s.particleCount f g) : f.st = g.st := by
  apply state_eq
  · exact h.moved.sizes.trans h.allMoved.sizes.symm
  · exact h.moved.maxX.trans h.allMoved.maxX.symm
  · exact h.moved.maxY.trans h.allMoved.maxY.symm
  · exact h.moved.particleCount.trans h.allMoved.particleCount.symm
  · exact h.moved.same_positions h.allMoved
  · funext k
    exact particleData_eq _ _ (h.moved.same_velocity h.allMoved k) (h.counts k)
  · exact h.positions
  · exact h.colors
  · exact h.moved.effectController.trans h.allMoved.effectController.symm
  · exact h.moved.particlesDrawCount.trans h.allMoved.particlesDrawCount.symm
  · exact h.linesDrawCount

theorem tickFrame_staggered (sqrt fround : R → R) (s : State R)
    (hn : s.particleCount ≤ maxParticleCount) :
    Staggered fround s s.particleCount (tickFrame sqrt fround s)
      (specScan sqrt fround (specMotion fround s).particlePositions s.particlePositions
        (specMotion fround s)) := by
  unfold tickFrame specScan
  show Staggered fround s s.particleCount
    ((List.range s.particleCount).foldl (outerStep sqrt fround) (initFrame s))
    ((List.range s.particleCount).foldl
      (specScanRow sqrt fround (specMotion fround s).particlePositions s.particlePositions)
      (specReset (specMotion fround s)))
  rw [List.range_eq_range']
  have key := foldl_range'_rel (fun m u v => Staggered fround s m u v)
    (outerStep sqrt fround)
    (specScanRow sqrt fround (specMotion fround s).particlePositions s.particlePositions)
    s.particleCount 0 (initFrame s) (specReset (specMotion fround s))
    (fun k u v _ hk huv => (huv.advance (by omega)).row sqrt (by omega))
    (Staggered.start fround s)
  rw [Nat.zero_add] at key
  exact key

end Refinement

/-! ## The two orders of motion and scan -/

section TickRefinement

variable {R : Type} [LinearOrderedField R]

/-- C3, amended: `tick` is equivalent to the motion step on all active particles
(velocity / 20 on x and y, with boundary reflection) and the pair scan of section 4.4
of the specification in which every pair `(i, j)`, `i < j`, takes the position of `i`
after the motion and the position of `j` before the motion, both for the distance
test and for the edge vertices: particle positions, velocities, connection counts,
edge-vertex buffer, edge-colour buffer and valid vertex count 2 * numConnected are
the same. -/
theorem tick_eq_staggeredTick (sqrt fround : R → R) (s : State R)
    (hn : s.particleCount ≤ maxParticleCount) :
    tick sqrt fround s = some (staggeredTick sqrt fround s) := by
  have h := tickFrame_staggered sqrt fround s hn
  rw [tick_eq_some sqrt fround s hn]
  show some { (tickFrame sqrt fround s).st with
      linesDrawCount := (tickFrame sqrt fround s).numConnected * 2 }
    = some { (specScan sqrt fround (specMotion fround s).particlePositions s.particlePositions
        (specMotion fround s)).st with
      linesDrawCount := (specScan sqrt fround (specMotion fround s).particlePositions
        s.particlePositions (specMotion fround s)).numConnected * 2 }
  rw [h.finish, h.numConnected]

/-- Witness of C3 amended on the approach scene, where particle 1 moves. -/
theorem tick_eq_staggeredTick_witness :
    sceneApproach.particleCount ≤ maxParticleCount ∧
    tick ratSqrt fround32 sceneApproach = some (staggeredTick ratSqrt fround32 sceneApproach) :=
  ⟨by decide, tick_eq_staggeredTick ratSqrt fround32 sceneApproach (by decide)⟩

/-- C3 fails on the code as stated: in the approach scene particle 1 moves from x = 1 to
x = 31/32 during the tick. `tick` examines the pair (0, 1) before particle 1 has moved,
at distance 1, which is not below the threshold 1, and records no edge; the motion of
all particles followed by the scan sees distance 31/32 and records one edge. -/
theorem tick_differs_from_motion_then_scan :
    sceneApproach.particleCount ≤ maxParticleCount ∧
    (∃ t, tick ratSqrt fround32 sceneApproach = some t ∧ t.linesDrawCount = 0) ∧
    (specTick ratSqrt fround32 sceneApproach).linesDrawCount = 2 := by
  refine ⟨by decide, ⟨_, tick_eq_some ratSqrt fround32 sceneApproach (by decide), ?_⟩, ?_⟩
  · show (tickFrame ratSqrt fround32 sceneApproach).numConnected * 2 = 0
    decide!
  · decide!

end TickRefinement

/-! ## The scenes, evaluated -/

section Evaluated

theorem ratSqrt_nonneg (x : ℚ) : 0 ≤ ratSqrt x := by
  unfold ratSqrt
  positivity

/-- The scenario of the specification on the code: one tick records exactly the edge
between particles 0 and 1, with alpha 1 - 5 / 12, stored as the 32 bit float
9786709 / 2^24, in its six colour entries, and leaves particles 0 and 1 with one
connection each and particle 2 with none. -/
theorem sceneLine_one_edge :
    ∃ t, tick ratSqrt fround32 sceneLine = some t ∧ t.linesDrawCount = 2 ∧
      (∀ k, k < 6 → t.colors k = fround32 (1 - 5 / 12)) ∧
      fround32 (1 - 5 / 12) = 9786709 / 16777216 ∧
      (t.particlesData 0).numConnections = 1 ∧ (t.particlesData 1).numConnections = 1 ∧
      (t.particlesData 2).numConnections = 0 := by
  refine ⟨_, tick_eq_some ratSqrt fround32 sceneLine (by decide), ?_, ?_, ?_, ?_, ?_, ?_⟩
  · show (tickFrame ratSqrt fround32 sceneLine).numConnected * 2 = 2
    decide!
  · show ∀ k, k < 6 → (tickFrame ratSqrt fround32 sceneLine).st.colors k = fround32 (1 - 5 / 12)
    decide!
  · decide!
  · show ((tickFrame ratSqrt fround32 sceneLine).st.particlesData 0).numConnections = 1
    decide!
  · show ((tickFrame ratSqrt fround32 sceneLine).st.particlesData 1).numConnections = 1
    decide!
  · show ((tickFrame ratSqrt fround32 sceneLine).st.particlesData 2).numConnections = 0
    decide!

/-- Witness of C8 on the bounce scene: when the pair (0, 1) is examined particle 0 has
moved to (1/32, 1/32, 0) and particle 1 is still at (161/32, 1/32, 0), at distance 5,
below the threshold 12. -/
theorem tick_edge_alpha_witness :
    (∀ x, 0 ≤ ratSqrt x) ∧ sceneBounce.particleCount ≤ maxParticleCount ∧
    capReached (frameAtScan ratSqrt fround32 sceneBounce 0).st 0 = false ∧
    capReached (frameAtPair ratSqrt fround32 sceneBounce 0 1).st 1 = false ∧
    (1 / 32 : ℚ) = fround32 (sceneBounce.particlePositions (0 * 3 + 0)
      + (sceneBounce.particlesData 0).velocity.x / 20) ∧
    (1 / 32 : ℚ) = fround32 (sceneBounce.particlePositions (0 * 3 + 1)
      + (sceneBounce.particlesData 0).velocity.y / 20) ∧
    (0 : ℚ) = sceneBounce.particlePositions (0 * 3 + 2) ∧
    (161 / 32 : ℚ) = sceneBounce.particlePositions (1 * 3 + 0) ∧
    (1 / 32 : ℚ) = sceneBounce.particlePositions (1 * 3 + 1) ∧
    (0 : ℚ) = sceneBounce.particlePositions (1 * 3 + 2) ∧
    (5 : ℚ) = ratSqrt ((1 / 32 - 161 / 32) * (1 / 32 - 161 / 32)
      + (1 / 32 - 1 / 32) * (1 / 32 - 1 / 32) + (0 - 0) * (0 - 0)) ∧
    (5 : ℚ) < sceneBounce.effectController.minDistance ∧
    ∃ t, tick ratSqrt fround32 sceneBounce = some t ∧
      pairDist ratSqrt (frameAtPair ratSqrt fround32 sceneBounce 0 1).st 0 1 = 5 ∧
      (pairStep ratSqrt fround32 0 (frameAtPair ratSqrt fround32 sceneBounce 0 1) 1).numConnected
        = (frameAtPair ratSqrt fround32 sceneBounce 0 1).numConnected + 1 ∧
      0 < 1 - 5 / sceneBounce.effectController.minDistance ∧
      1 - 5 / sceneBounce.effectController.minDistance ≤ 1 ∧
      (∀ k, k < 6 → t.colors ((frameAtPair ratSqrt fround32 sceneBounce 0 1).colorpos + k) =
        fround32 (1 - 5 / sceneBounce.effectController.minDistance)) ∧
      (fround32 (1 - 5 / sceneBounce.effectController.minDistance)
          = 1 - 5 / sceneBounce.effectController.minDistance →
        ∀ k, k < 6 → t.colors ((frameAtPair ratSqrt fround32 sceneBounce 0 1).colorpos + k) =
          1 - 5 / sceneBounce.effectController.minDistance) :=
  ⟨ratSqrt_nonneg, by decide, by decide!, by decide!, by decide!, by decide!, by decide!,
    by decide!, by decide!, by decide!, by decide!, by decide!,
    tick_edge_alpha ratSqrt fround32 ratSqrt_nonneg sceneBounce (by decide) 0 1 (by decide)
      (by decide) (by decide!) (by decide!) (1 / 32) (1 / 32) 0 (161 / 32) (1 / 32) 0 5
      (by decide!) (by decide!) (by decide!) (by decide!) (by decide!) (by decide!)
      (by decide!) (by decide!)⟩

/-- C9 fails on the code as stated. In the inexact scene x = 1 and velocity.x = 1/2:
the new x is the 32 bit float 8598323 / 2^23, not 1 + 1/40. In the graze scene x = 50 =
maxX / 2 and velocity.x = 2^-26: x + velocity.x / 20 is above maxX / 2, yet the stored
x is 50 and velocity.x is not negated. -/
theorem tick_stores_rounded_sum :
    (∃ t, tick ratSqrt fround32 sceneInexact = some t ∧
      t.particlePositions (0 * 3 + 0) = 8598323 / 8388608 ∧
      t.particlePositions (0 * 3 + 0) ≠ sceneInexact.particlePositions (0 * 3 + 0)
        + (sceneInexact.particlesData 0).velocity.x / 20) ∧
    (∃ t, tick ratSqrt fround32 sceneGraze = some t ∧
      sceneGraze.particlePositions (0 * 3 + 0) + (sceneGraze.particlesData 0).velocity.x / 20
        > sceneGraze.maxX / 2 ∧
      t.particlePositions (0 * 3 + 0) = 50 ∧
      (t.particlesData 0).velocity.x = (sceneGraze.particlesData 0).velocity.x ∧
      (t.particlesData 0).velocity.x ≠ - (sceneGraze.particlesData 0).velocity.x) := by
  refine ⟨⟨_, tick_eq_some ratSqrt fround32 sceneInexact (by decide), ?_, ?_⟩,
    ⟨_, tick_eq_some ratSqrt fround32 sceneGraze (by decide), ?_, ?_, ?_, ?_⟩⟩
  · show (tickFrame ratSqrt fround32 sceneInexact).st.particlePositions (0 * 3 + 0) = _
    decide!
  · show (tickFrame ratSqrt fround32 sceneInexact).st.particlePositions (0 * 3 + 0) ≠ _
    decide!
  · decide!
  · show (tickFrame ratSqrt fround32 sceneGraze).st.particlePositions (0 * 3 + 0) = _
    decide!
  · show ((tickFrame ratSqrt fround32 sceneGraze).st.particlesData 0).velocity.x = _
    decide!
  · show ((tickFrame ratSqrt fround32 sceneGraze).st.particlesData 0).velocity.x ≠ _
    decide!

/-- C2 fails on the code: in the cluster scene (three particles at the origin,
`limitConnections` on, `maxConnections = 1`) one tick leaves particle 0 with two
connections. -/
theorem tick_exceeds_cap :
    sceneCluster.particleCount ≤ maxParticleCount ∧
    sceneCluster.effectController.limitConnections = true ∧
    sceneCluster.effectController.maxConnections = 1 ∧
    ∃ t, tick ratSqrt fround32 sceneCluster = some t ∧
      (t.particlesData 0).numConnections = 2 := by
  refine ⟨by decide, rfl, rfl, _, tick_eq_some ratSqrt fround32 sceneCluster (by decide), ?_⟩
  show ((tickFrame ratSqrt fround32 sceneCluster).st.particlesData 0).numConnections = 2
  decide!

/-- C1 fails on the code: in the cluster scene with `maxConnections = 1`, row 0 is
entered, and when the pair (0, 2) is examined particle 0 already has one connection,
so it is not below the cap, yet the inner loop body records the edge (0, 2). -/
theorem pair_recorded_past_cap :
    sceneCluster.effectController.limitConnections = true ∧
    sceneCluster.effectController.maxConnections = 1 ∧
    capReached (frameAtScan ratSqrt fround32 sceneCluster 0).st 0 = false ∧
    ((frameAtPair ratSqrt fround32 sceneCluster 0 2).st.particlesData 0).numConnections = 1 ∧
    (frameAtPair ratSqrt fround32 sceneCluster 0 2).numConnected = 1 ∧
    (pairStep ratSqrt fround32 0 (frameAtPair ratSqrt fround32 sceneCluster 0 2) 2).numConnected
      = 2 := by
  refine ⟨rfl, rfl, ?_, ?_, ?_, ?_⟩ <;> decide!

/-- C4 fails on the code: a click on a full store (`particleCount = maxParticleCount`)
drops the two position writes, which fall outside `particlePositions`, but still
increments `particleCount` to `maxParticleCount + 1`; the next `tick` then reaches
`particlesData[maxParticleCount]`, which does not exist, and throws. -/
theorem click_on_full_store :
    sceneFull.particleCount = maxParticleCount ∧
    (tick ratSqrt fround32 sceneFull).isSome = true ∧
    (click fround32 400 300 sceneFull).particlePositions = sceneFull.particlePositions ∧
    (click fround32 400 300 sceneFull).particleCount = maxParticleCount + 1 ∧
    tick ratSqrt fround32 (click fround32 400 300 sceneFull) = none := by
  refine ⟨rfl, ?_, ?_, rfl, ?_⟩
  · rw [tick_eq_some ratSqrt fround32 sceneFull (le_of_eq rfl)]
    rfl
  · simp [click, f32set, sceneFull, scene]
  · unfold tick
    rw [if_neg]
    show ¬ (maxParticleCount + 1 ≤ maxParticleCount)
    omega

end Evaluated

end LinkedPoints
